import Mathlib

/-!
# Verification of the ai-knowledge-base ingest pipeline

Shallow embedding of the three-stage ingest pipeline (sync → process → index)
of the `ai-knowledge-base` repository, together with proofs and refutations of
the frozen claims about its specification.

Conventions of the embedding:

* The PostgreSQL/SQLite state store is modelled as a pure `DBState` value; each
  mutating call of `Database` becomes a function `DBState → DBState`.
  Timestamps are modelled by an abstract counter `now : Nat` passed to each
  operation (the source calls `datetime.utcnow()`).
* SQL `NULL` is `Option.none`; the Python distinction between `None` and the
  empty string `""` is preserved as `none` versus `some ""` — this distinction
  is load-bearing in `upsert_file` (`if error_message is not None`).
* The SHA-256 function (`hashlib.sha256(...).hexdigest()`) is an external
  library call; sync operations take it as an explicit parameter
  `hash : String → String` applied to the downloaded payload.
* External services (Google Drive, S3, OpenAI) appear only through the data
  the pipeline reads from them (payload bytes as a `String`, call outcomes as
  inductive values); their internals are not part of any claim.
-/

namespace AIKB

/-! ## Path helpers

`pathlib.Path(...).stem` and `.suffix` as used by the pipeline
(`Path(existing_key).stem`, `Path(file_name).suffix.lower()`, ...).
The last `/`-component is split at its last dot; a dot at position 0
(a hidden file) yields no suffix, matching Python. -/

/-- Split a character list at every occurrence of `c` (the behaviour of
`str.split(c)` on the splitting characters used here). -/
def splitOnCharAux (c : Char) : List Char → List Char → List (List Char)
  | [], acc => [acc.reverse]
  | d :: rest, acc =>
    if d = c then acc.reverse :: splitOnCharAux c rest []
    else splitOnCharAux c rest (d :: acc)

/-- Split a character list at every occurrence of `c`. -/
def splitOnChar (c : Char) (cs : List Char) : List (List Char) :=
  splitOnCharAux c cs []

/-- `str.lower()` over the ASCII range used by extensions. -/
def lowerString (s : String) : String :=
  String.mk (s.toList.map Char.toLower)

/-- `str.strip()`: remove leading and trailing whitespace. -/
def pyStrip (s : String) : String :=
  String.mk (((s.toList.dropWhile Char.isWhitespace).reverse.dropWhile
    Char.isWhitespace).reverse)

/-- Last `/`-separated component of a path, like `pathlib.Path(s).name`. -/
def lastComponent (s : String) : String :=
  String.mk (((splitOnChar '/' s.toList).getLast?).getD s.toList)

/-- Split a file name (as a character list) into (stem, suffix-with-dot) at
its last dot.  No dot, or a dot only at position 0, yields an empty suffix —
the behaviour of `pathlib`. -/
def splitAtLastDot (base : List Char) : List Char × List Char :=
  let rev := base.reverse
  let afterDot := rev.takeWhile (fun c => c ≠ '.')
  if afterDot.length = rev.length then
    (base, [])
  else
    let stemRev := rev.drop (afterDot.length + 1)
    if stemRev.isEmpty then (base, [])
    else (stemRev.reverse, '.' :: afterDot.reverse)

/-- `pathlib.Path(s).stem`. -/
def pathStem (s : String) : String :=
  String.mk (splitAtLastDot (lastComponent s).toList).1

/-- `pathlib.Path(s).suffix`. -/
def pathSuffix (s : String) : String :=
  String.mk (splitAtLastDot (lastComponent s).toList).2

/-- `Path(name).suffix.lower()`. -/
def suffixLower (s : String) : String :=
  lowerString (pathSuffix s)

/-! ## Data model (`src/services/ingest/src/database.py`)

`FileStatus` and the `file_state` / `drive_file_mapping` / `checkpoint`
tables.  Columns not read or written by any embedded operation
(`drive_created_time`, `drive_modified_time`, `drive_mime_type`,
`original_file_size`) are omitted; no embedded call site passes them. -/

/-- File processing status states (`class FileStatus(Enum)`). -/
inductive FileStatus where
  | synced
  | processing
  | processed
  | indexing
  | indexed
  | failed_sync
  | failed_process
  | failed_index
deriving DecidableEq, Repr

/-- One row of the `file_state` table, keyed by `sha256`. -/
structure FileRecord where
  sha256 : String
  drive_file_id : Option String
  drive_path : Option String
  original_name : Option String
  s3_key : String
  extension : Option String
  status : FileStatus
  synced_at : Option Nat
  processed_at : Option Nat
  indexed_at : Option Nat
  processed_text_size : Option Nat
  openai_file_id : Option String
  vector_store_id : Option String
  error_message : Option String
  error_type : Option String
  retry_count : Nat
  last_error_at : Option Nat
  created_at : Nat
  updated_at : Nat
deriving DecidableEq, Repr

/-- One row of the `drive_file_mapping` table (the OriginMapping entity),
keyed by `drive_file_id`. -/
structure DriveMapping where
  drive_file_id : String
  sha256 : String
  drive_path : Option String
  original_name : Option String
  created_at : Nat
  updated_at : Nat
deriving DecidableEq, Repr

/-- The whole relational state: the three tables of the state store.
The `checkpoint` table is a key/value association list. -/
structure DBState where
  file_state : List FileRecord
  drive_file_mapping : List DriveMapping
  checkpoint : List (String × String)
deriving DecidableEq, Repr

/-- The empty database (freshly initialised schema). -/
def DBState.empty : DBState :=
  { file_state := [], drive_file_mapping := [], checkpoint := [] }

/-! ## Database operations -/

/-- The optional keyword arguments of `Database.upsert_file`; `none` models an
argument left at its Python default `None`. -/
structure UpsertFields where
  drive_file_id : Option String
  drive_path : Option String
  original_name : Option String
  extension : Option String
  processed_text_size : Option Nat
  openai_file_id : Option String
  vector_store_id : Option String
  error_message : Option String
  error_type : Option String
deriving DecidableEq, Repr

/-- All optional arguments left at `None`. -/
def UpsertFields.noArgs : UpsertFields :=
  { drive_file_id := none, drive_path := none, original_name := none,
    extension := none, processed_text_size := none, openai_file_id := none,
    vector_store_id := none, error_message := none, error_type := none }

/-- `if <arg> is not None: updates[col] = <arg>` — overwrite a column only
when the optional argument was provided. -/
def overwriteIfProvided (current arg : Option String) : Option String :=
  match arg with
  | some v => some v
  | none => current

/-- `Database.get_file_by_sha256`: `SELECT * FROM file_state WHERE sha256 = ?`. -/
def get_file_by_sha256 (db : DBState) (sha256 : String) : Option FileRecord :=
  db.file_state.find? (fun r => r.sha256 == sha256)

/-- `Database.get_file_by_drive_id`:
`SELECT * FROM file_state WHERE drive_file_id = ?` (no status filter). -/
def get_file_by_drive_id (db : DBState) (drive_file_id : String) : Option FileRecord :=
  db.file_state.find? (fun r => r.drive_file_id == some drive_file_id)

/-- The `UPDATE` branch of `Database.upsert_file`
(src/services/ingest/src/database.py lines 211-279).

Status, `updated_at` and `s3_key` are written unconditionally; provided
optional columns overwrite; a provided `error_message` (including the empty
string — the source checks `is not None`) also writes `error_type`,
`last_error_at` and increments `retry_count`; the stage-success timestamp
matching the new status is set only if currently `NULL`. -/
def upsertExisting (existing : FileRecord) (now : Nat) (s3_key : String)
    (status : FileStatus) (f : UpsertFields) : FileRecord :=
  let r1 : FileRecord :=
    { existing with
      status := status
      updated_at := now
      s3_key := s3_key
      drive_file_id := overwriteIfProvided existing.drive_file_id f.drive_file_id
      drive_path := overwriteIfProvided existing.drive_path f.drive_path
      original_name := overwriteIfProvided existing.original_name f.original_name
      extension := overwriteIfProvided existing.extension f.extension
      processed_text_size :=
        match f.processed_text_size with
        | some v => some v
        | none => existing.processed_text_size
      openai_file_id := overwriteIfProvided existing.openai_file_id f.openai_file_id
      vector_store_id := overwriteIfProvided existing.vector_store_id f.vector_store_id }
  let r2 : FileRecord :=
    match f.error_message with
    | some m =>
      { r1 with
        error_message := some m
        error_type := f.error_type
        last_error_at := some now
        retry_count := existing.retry_count + 1 }
    | none => r1
  if status == FileStatus.synced && existing.synced_at == none then
    { r2 with synced_at := some now }
  else if status == FileStatus.processed && existing.processed_at == none then
    { r2 with processed_at := some now }
  else if status == FileStatus.indexed && existing.indexed_at == none then
    { r2 with indexed_at := some now }
  else r2

/-- The `INSERT` branch of `Database.upsert_file` (lines 280-304). -/
def insertedRecord (now : Nat) (sha256 s3_key : String)
    (status : FileStatus) (f : UpsertFields) : FileRecord :=
  { sha256 := sha256
    drive_file_id := f.drive_file_id
    drive_path := f.drive_path
    original_name := f.original_name
    s3_key := s3_key
    extension := f.extension
    status := status
    synced_at := if status == FileStatus.synced then some now else none
    processed_at := none
    indexed_at := none
    processed_text_size := f.processed_text_size
    openai_file_id := f.openai_file_id
    vector_store_id := f.vector_store_id
    error_message := f.error_message
    error_type := f.error_type
    retry_count := 0
    last_error_at :=
      match f.error_message with
      | some m => if m = "" then none else some now
      | none => none
    created_at := now
    updated_at := now }

/-- `Database.upsert_file`: update the existing row keyed by `sha256`, or
insert a new one. -/
def upsert_file (db : DBState) (now : Nat) (sha256 s3_key : String)
    (status : FileStatus) (f : UpsertFields) : DBState :=
  match get_file_by_sha256 db sha256 with
  | some existing =>
    let r3 := upsertExisting existing now s3_key status f
    { db with
      file_state := db.file_state.map (fun r => if r.sha256 == sha256 then r3 else r) }
  | none =>
    { db with
      file_state := db.file_state ++ [insertedRecord now sha256 s3_key status f] }

/-- `Database.upsert_drive_mapping` (src/services/ingest/src/database.py
lines 306-347): `INSERT ... ON CONFLICT(drive_file_id) DO UPDATE`.
Defined because the schema has the table; no pipeline operation calls it. -/
def upsert_drive_mapping (db : DBState) (now : Nat) (drive_file_id sha256 : String)
    (drive_path original_name : Option String) : DBState :=
  match db.drive_file_mapping.find? (fun m => m.drive_file_id == drive_file_id) with
  | some _ =>
    { db with
      drive_file_mapping := db.drive_file_mapping.map (fun m =>
        if m.drive_file_id == drive_file_id then
          { m with sha256 := sha256, drive_path := drive_path,
                   original_name := original_name, updated_at := now }
        else m) }
  | none =>
    { db with
      drive_file_mapping := db.drive_file_mapping ++
        [{ drive_file_id := drive_file_id, sha256 := sha256,
           drive_path := drive_path, original_name := original_name,
           created_at := now, updated_at := now }] }

/-- `Database.get_checkpoint`: `SELECT value FROM checkpoint WHERE key = ?`. -/
def get_checkpoint (db : DBState) (key : String) : Option String :=
  (db.checkpoint.find? (fun kv => kv.1 == key)).map (fun kv => kv.2)

/-- `Database.set_checkpoint`: `INSERT ... ON CONFLICT (key) DO UPDATE`. -/
def set_checkpoint (db : DBState) (key value : String) : DBState :=
  if (db.checkpoint.find? (fun kv => kv.1 == key)).isSome then
    { db with checkpoint := db.checkpoint.map (fun kv =>
        if kv.1 == key then (kv.1, value) else kv) }
  else
    { db with checkpoint := db.checkpoint ++ [(key, value)] }

/-- `Database.get_files_by_status`:
`SELECT * FROM file_state WHERE status = ? ORDER BY updated_at DESC [LIMIT n]`.
The `ORDER BY` clause is presentation order over the same row set; the
theorems below use it only with `limit = none`, where order does not affect
membership, so rows are kept in table order. -/
def get_files_by_status (db : DBState) (status : FileStatus)
    (limit : Option Nat) : List FileRecord :=
  let rows := db.file_state.filter (fun r => r.status == status)
  match limit with
  | some n => rows.take n
  | none => rows

/-- `Database.get_files_for_processing` — rows at `synced`. -/
def get_files_for_processing (db : DBState) (limit : Option Nat) : List FileRecord :=
  get_files_by_status db FileStatus.synced limit

/-- `Database.get_files_for_indexing` — rows at `processed`. -/
def get_files_for_indexing (db : DBState) (limit : Option Nat) : List FileRecord :=
  get_files_by_status db FileStatus.processed limit

/-- Well-formedness of the `file_state` table: `sha256` is its primary key,
so the stored digests are pairwise distinct. -/
def uniqueShas (db : DBState) : Prop :=
  (db.file_state.map (fun r => r.sha256)).Nodup

/-! ## Drive sync (`src/src/drive_sync.py`)

A drive item carries the metadata returned by the Drive listing plus the
payload bytes (`String`) that downloading (or exporting) it yields. -/

/-- One leaf item of the Drive traversal. -/
structure DriveItem where
  id : String
  name : String
  path : String
  mimeType : String
  modifiedTime : String
  content : String
deriving DecidableEq, Repr

/-- `GOOGLE_MIME_EXPORTS`: the three Google Workspace MIME types that are
exported rather than downloaded, with their target extension. -/
def googleMimeExportExt (mimeType : String) : Option String :=
  if mimeType == "application/vnd.google-apps.document" then some ".docx"
  else if mimeType == "application/vnd.google-apps.presentation" then some ".pptx"
  else if mimeType == "application/vnd.google-apps.spreadsheet" then some ".xlsx"
  else none

/-- `DriveSync.file_already_synced` (lines 182-208): O(1) database lookup by
drive file id — with no status filter — returning the stored S3 key and
whether the stored path/name snapshot differs from the current one. -/
def file_already_synced (db : DBState) (drive_file_id drive_path original_name : String) :
    Option (String × Bool) :=
  match get_file_by_drive_id db drive_file_id with
  | some r =>
    some (r.s3_key,
      !(r.drive_path == some drive_path && r.original_name == some original_name))
  | none => none

/-- The effective file name after export renaming (lines 288-291): Google
Workspace items get the export extension appended to the stem. -/
def exportFileName (item : DriveItem) : String :=
  match googleMimeExportExt item.mimeType with
  | some export_ext => pathStem item.name ++ export_ext
  | none => item.name

/-- The CAS key with two-level hash sharding (lines 320-325):
`objects/aa/bb/{sha256}{ext}`. -/
def casObjectKey (sha256 extension : String) : String :=
  "objects/" ++ sha256.take 2 ++ "/" ++ (sha256.drop 2).take 2
    ++ "/" ++ sha256 ++ extension

/-- Classification of what `DriveSync.download_and_upload_file` did for one
item (the four outcomes of §4.D plus the upload-failure path). -/
inductive SyncAction where
  | skip (s3_key sha256 : String)
  | metadataOnly (s3_key sha256 : String)
  | dedupeLink (s3_key sha256 : String)
  | upload (s3_key sha256 : String)
  | failed (sha256 : String)
deriving DecidableEq, Repr

/-- `DriveSync.download_and_upload_file` (lines 210-410).

Order of the source: (1) origin fast-path by drive id — on a hit, either a
pure skip or a metadata-only update that upserts the row back to `synced`;
(2) download and digest (the `hash` parameter models
`hashlib.sha256(...).hexdigest()`; Google-native formats get their export
extension appended); (3) content fast-path by digest — upsert the row to
`synced` with the new drive id, no re-upload; (4) upload, then upsert
`synced`, or on an upload error (`uploadFails`) upsert `failed_sync` with the
error recorded.  Returns the new database, the action taken, and the
`(s3_key, is_new, sha256)` result (`none` on failure). -/
def download_and_upload_file (hash : String → String) (now : Nat) (db : DBState)
    (item : DriveItem) (uploadFails dry_run : Bool) :
    DBState × SyncAction × Option (String × Bool × String) :=
  match file_already_synced db item.id item.path item.name with
  | some (existing_key, needs_metadata_update) =>
    if needs_metadata_update then
      let sha256 := pathStem existing_key
      let db1 :=
        if dry_run then db
        else upsert_file db now sha256 existing_key FileStatus.synced
          { UpsertFields.noArgs with
            drive_file_id := some item.id
            drive_path := some item.path
            original_name := some item.name }
      (db1, SyncAction.metadataOnly existing_key sha256, some (existing_key, false, sha256))
    else
      let sha256 := pathStem existing_key
      (db, SyncAction.skip existing_key sha256, some (existing_key, false, sha256))
  | none =>
    let sha256 := hash item.content
    let extension := suffixLower (exportFileName item)
    let s3_key := casObjectKey sha256 extension
    match get_file_by_sha256 db sha256 with
    | some _ =>
      let db1 :=
        if dry_run then db
        else upsert_file db now sha256 s3_key FileStatus.synced
          { UpsertFields.noArgs with
            drive_file_id := some item.id
            drive_path := some item.path
            original_name := some item.name
            extension := some extension }
      (db1, SyncAction.dedupeLink s3_key sha256, some (s3_key, false, sha256))
    | none =>
      if dry_run then
        (db, SyncAction.upload s3_key sha256, some (s3_key, true, sha256))
      else if uploadFails then
        let db1 := upsert_file db now sha256 s3_key FileStatus.failed_sync
          { UpsertFields.noArgs with
            drive_file_id := some item.id
            drive_path := some item.path
            original_name := some item.name
            extension := some extension
            error_message := some "upload error"
            error_type := some "Exception" }
        (db1, SyncAction.failed sha256, none)
      else
        let db1 := upsert_file db now sha256 s3_key FileStatus.synced
          { UpsertFields.noArgs with
            drive_file_id := some item.id
            drive_path := some item.path
            original_name := some item.name
            extension := some extension }
        (db1, SyncAction.upload s3_key sha256, some (s3_key, true, sha256))

/-- The Drive-listing query filter of `DriveSync.list_files_from_drive`
(lines 134-136): with a `modified_after` bound the query adds
`modifiedTime > '<bound>'` (strict, RFC3339 strings compared
lexicographically); without one, every item matches. -/
def driveQueryMatches (modified_after : Option String) (item : DriveItem) : Bool :=
  match modified_after with
  | some w => w < item.modifiedTime
  | none => true

/-- The extension/export acceptance test of `list_files_from_drive`
(lines 164-168). -/
def driveItemAccepted (additional_extensions : List String) (item : DriveItem) : Bool :=
  additional_extensions.contains (suffixLower item.name)
    || (googleMimeExportExt item.mimeType).isSome

/-- `DriveSync.list_files_from_drive` (lines 111-180) over a drive modelled as
the flat list of its leaf items (the recursive folder walk linearised):
yields accepted items matching the query filter, up to `max_files`. -/
def list_files_from_drive (driveItems : List DriveItem)
    (additional_extensions : List String) (max_files : Option Nat)
    (modified_after : Option String) : List DriveItem :=
  let eligible := driveItems.filter (fun it =>
    driveQueryMatches modified_after it && driveItemAccepted additional_extensions it)
  match max_files with
  | some n => eligible.take n
  | none => eligible

/-- The traversal that `DriveSync.sync` actually consumes (lines 446-449):
built with `max_files=None` and `modified_after=None` — the stored watermark
is read but not passed to the listing. -/
def syncTraversal (driveItems : List DriveItem)
    (additional_extensions : List String) : List DriveItem :=
  list_files_from_drive driveItems additional_extensions none none

/-- The watermark update of the sync loop (lines 516-517):
`if not latest_modified or file_meta['modifiedTime'] > latest_modified`. -/
def updateLatest (latest : Option String) (t : String) : Option String :=
  match latest with
  | none => some t
  | some cur => if cur < t then some t else some cur

/-- Accumulator of the sync loop: database, successful count, failed count,
running watermark, successfully synced hashes. -/
structure SyncLoopState where
  db : DBState
  successful : Nat
  failed : Nat
  latest_modified : Option String
  synced_sha256_hashes : List String
deriving Repr

/-- One iteration of the sync loop body over a drive item; the `Bool` paired
with the item injects whether its upload would fail. -/
def syncStep (hash : String → String) (now : Nat) (dry_run : Bool)
    (st : SyncLoopState) (it : DriveItem × Bool) : SyncLoopState :=
  match download_and_upload_file hash now st.db it.1 it.2 dry_run with
  | (db1, _, some (_, _, sha256)) =>
    { db := db1
      successful := st.successful + 1
      failed := st.failed
      latest_modified := updateLatest st.latest_modified it.1.modifiedTime
      synced_sha256_hashes := st.synced_sha256_hashes ++ [sha256] }
  | (db1, _, none) =>
    { db := db1
      successful := st.successful
      failed := st.failed + 1
      latest_modified := st.latest_modified
      synced_sha256_hashes := st.synced_sha256_hashes }

/-- `DriveSync.sync` (lines 412-600), reduced to its state effects.

The checkpoint is read unless `force_full` (and reads as `None` under
`dry_run`); the item loop is folded sequentially (the thread pool changes
completion order only, and the running watermark is a maximum, which is
order-independent); the incremental every-10-files checkpoint saves are
omitted because the final save (line 591-592) overwrites them whenever it
runs, i.e. whenever at least one item succeeded; `max_files` early-stop
corresponds to running on a prefix of `items`.  Returns the final database
and `(successful, failed, synced_sha256_hashes)`. -/
def sync (hash : String → String) (now : Nat) (db0 : DBState)
    (items : List (DriveItem × Bool)) (force_full dry_run : Bool) :
    DBState × Nat × Nat × List String :=
  let last_checkpoint :=
    if force_full then none
    else if dry_run then none
    else get_checkpoint db0 "drive_sync_last_modified"
  let final := items.foldl (syncStep hash now dry_run)
    { db := db0, successful := 0, failed := 0,
      latest_modified := last_checkpoint, synced_sha256_hashes := [] }
  if final.successful == 0 && final.failed == 0 then
    (final.db, 0, 0, [])
  else
    let db2 :=
      match final.latest_modified with
      | some t =>
        if final.successful > 0 && !dry_run then
          set_checkpoint final.db "drive_sync_last_modified" t
        else final.db
      | none => final.db
    (db2, final.successful, final.failed, final.synced_sha256_hashes)

/-! ## Extraction stage (`src/services/ingest/src/processor.py`)

An extraction worker sees a document only through the elements the
partitioner emits (objects with a `text` and a `category`, whose `str()` is
the text).  OCR runtime and output are inputs of the embedding: the OCR
engine is an external process. -/

/-- One partitioner element (`{type, text}`; `category = "PageBreak"` marks a
page break in the fast PDF pass). -/
structure Element where
  text : String
  category : String
deriving DecidableEq, Repr

/-- Outcome of a partitioning attempt run under `_process_with_timeout`. -/
inductive OcrOutcome where
  | ok (elements : List Element)
  | timeout
deriving DecidableEq, Repr

/-- `_process_with_timeout` (lines 282-312): the partition runs in a
subprocess; `future.result(timeout=...)` raises `TimeoutError` iff the run
exceeds the wall-clock limit, which kills the worker.  `duration` is the
run's wall-clock seconds. -/
def process_with_timeout (timeout duration : Nat) (elements : List Element) : OcrOutcome :=
  if duration ≤ timeout then OcrOutcome.ok elements else OcrOutcome.timeout

/-- The inputs of one extraction run that come from the partitioner and the
OCR engine: the fast-pass elements (PDF only), and the OCR/standard pass's
wall-clock seconds and elements. -/
structure ExtractionRun where
  fast_elements : List Element
  ocr_duration : Nat
  ocr_elements : List Element
deriving DecidableEq, Repr

/-- Total characters of the fast pass:
`sum(len(getattr(e, "text", "") or "") for e in fast_elements)`. -/
def totalChars (elements : List Element) : Nat :=
  (elements.map (fun e => e.text.length)).sum

/-- Pages counted from page-break markers:
`1 + sum(1 for e in fast_elements if e.category == "PageBreak")`. -/
def pagesOf (elements : List Element) : Nat :=
  1 + (elements.filter (fun e => e.category == "PageBreak")).length

/-- The PDF branch of `_process_single_file` (lines 409-443): fast pass,
density measure `chars_per_page = total_chars / max(1, pages)`, threshold
200; below the threshold an OCR pass under `_process_with_timeout(..., 300)`,
falling back to the fast result when the timeout fires.  Returns the chosen
elements and the `processing_strategy` tag. -/
def pdf_extract (run : ExtractionRun) : List Element × String :=
  let total_chars := totalChars run.fast_elements
  let pages := pagesOf run.fast_elements
  let chars_per_page : ℚ := (total_chars : ℚ) / (max 1 pages : ℚ)
  if 200 ≤ chars_per_page then
    (run.fast_elements, "fast")
  else
    match process_with_timeout 300 run.ocr_duration run.ocr_elements with
    | OcrOutcome.ok elements => (elements, "ocr")
    | OcrOutcome.timeout => (run.fast_elements, "fast_fallback")

/-- Partitioning dispatch of `_process_single_file` (lines 408-450): PDFs use
`pdf_extract` (its internal timeout is handled by falling back); other
formats run under the same 300 s timeout, whose firing re-raises and is
recorded by the caller as a `TimeoutError` failure. -/
def partitionDocument (ext : String) (run : ExtractionRun) :
    Except String (List Element) :=
  if ext == ".pdf" then Except.ok (pdf_extract run).1
  else
    match process_with_timeout 300 run.ocr_duration run.ocr_elements with
    | OcrOutcome.ok elements => Except.ok elements
    | OcrOutcome.timeout => Except.error "TimeoutError"

/-- `text_content = "\n\n".join(str(el) for el in elements)`. -/
def concatText (elements : List Element) : String :=
  String.intercalate "\n\n" (elements.map (fun e => e.text))

/-- The error message written on empty extracted text (line 492). -/
def emptyContentMessage : String :=
  "No text extracted from document (0 bytes) - file may be image-only with failed OCR, blank, or corrupted"

/-- `_process_single_file` (lines 315-645), reduced to its state effects.

Flow of the source: skip when the row is already at
`processed`/`indexing`/`indexed`; otherwise mark `processing` with empty-string
error fields (unless `dry_run`, which then returns); partition; if the
concatenated text strips to empty, mark `failed_process` with
`EmptyContentError`; otherwise upload the derivative artifacts (writes to the
object store, outside the state modelled here) and mark `processed`; a
`TimeoutError` escaping the non-PDF branch is caught by the outer handler and
recorded as `failed_process`.  Returns the new database and
`some sha256` on success. -/
def process_single_file (db : DBState) (now : Nat) (sha256 s3_key ext : String)
    (dry_run : Bool) (run : ExtractionRun) : DBState × Option String :=
  let skip :=
    match get_file_by_sha256 db sha256 with
    | some r =>
      r.status == FileStatus.processed || r.status == FileStatus.indexing
        || r.status == FileStatus.indexed
    | none => false
  if skip then (db, some sha256)
  else if dry_run then (db, some sha256)
  else
    let db1 := upsert_file db now sha256 s3_key FileStatus.processing
      { UpsertFields.noArgs with error_message := some "", error_type := some "" }
    match partitionDocument ext run with
    | Except.error err_type =>
      (upsert_file db1 now sha256 s3_key FileStatus.failed_process
        { UpsertFields.noArgs with
          error_message := some "Processing exceeded 300s timeout"
          error_type := some err_type }, none)
    | Except.ok elements =>
      let text_content := concatText elements
      if (pyStrip text_content).length == 0 then
        (upsert_file db1 now sha256 s3_key FileStatus.failed_process
          { UpsertFields.noArgs with
            extension := some ext
            processed_text_size := some 0
            error_message := some emptyContentMessage
            error_type := some "EmptyContentError" }, none)
      else
        (upsert_file db1 now sha256 s3_key FileStatus.processed
          { UpsertFields.noArgs with
            extension := some ext
            processed_text_size := some text_content.length
            error_message := some ""
            error_type := some "" }, some sha256)

/-- The seen-set deduplication loop of `list_incoming_files` (lines 736-741). -/
def dedupBySha : List FileRecord → List String → List FileRecord
  | [], _ => []
  | r :: rest, seen =>
    if seen.contains r.sha256 then dedupBySha rest seen
    else r :: dedupBySha rest (r.sha256 :: seen)

/-- `UnstructuredProcessor.list_incoming_files` (lines 716-759): rows at
`synced`, plus — with `retry_failed` — rows at `failed_process`, combined,
deduplicated by sha256 and truncated to `max_files`.  Returns
`(s3_key, sha256)` pairs. -/
def list_incoming_files (db : DBState) (max_files : Option Nat)
    (retry_failed : Bool) : List (String × String) :=
  if retry_failed then
    let synced_files := get_files_for_processing db max_files
    let failed_files := get_files_by_status db FileStatus.failed_process max_files
    let combined := dedupBySha (synced_files ++ failed_files) []
    let files :=
      match max_files with
      | some n => combined.take n
      | none => combined
    files.map (fun r => (r.s3_key, r.sha256))
  else
    (get_files_for_processing db max_files).map (fun r => (r.s3_key, r.sha256))

/-- The `filter_sha256` step of `process_batch` (lines 838-845; identical in
src/src/processor.py lines 538-547): guarded by `if filter_sha256:`, so a
`None` filter and an empty list alike apply no filtering (Python truthiness);
a nonempty list keeps only the listed hashes. -/
def filterBySha256 (files : List (String × String))
    (filter_sha256 : Option (List String)) : List (String × String) :=
  match filter_sha256 with
  | some fs => if fs.isEmpty then files else files.filter (fun p => fs.contains p.2)
  | none => files

/-- The candidate selection of `UnstructuredProcessor.process_batch`
(lines 834-845): list incoming files, then apply the optional sha filter. -/
def process_batch_selection (db : DBState) (max_files : Option Nat)
    (retry_failed : Bool) (filter_sha256 : Option (List String)) :
    List (String × String) :=
  filterBySha256 (list_incoming_files db max_files retry_failed) filter_sha256

/-! ## Indexing stage (`src/services/ingest/src/indexer.py`) -/

/-- `delay * (backoff_factor ** attempt)` capped at `max_delay`
(lines 52 and 62). -/
def waitTime (initial_delay max_delay backoff_factor : ℚ) (attempt : Nat) : ℚ :=
  min (initial_delay * backoff_factor ^ attempt) max_delay

/-- Outcome of one call of the wrapped function: success, a rate-limit
error, or an `APIError` carrying an HTTP status code. -/
inductive CallOutcome where
  | ok
  | rateLimit
  | apiError (status_code : Nat)
deriving DecidableEq, Repr

/-- Result of `retry_with_exponential_backoff`: success after some attempt,
or the exception re-raised. -/
inductive RetryResult where
  | success (attempt : Nat)
  | raised (outcome : CallOutcome)
deriving DecidableEq, Repr

/-- Trace of a retry run: its result, the number of calls made, and the
sleeps performed between calls, in order. -/
structure RetryTrace where
  result : RetryResult
  calls : Nat
  sleeps : List ℚ
deriving DecidableEq, Repr

/-- The loop body of `retry_with_exponential_backoff` (lines 45-68), with
`outcomes k` the result of the k-th call.  A rate-limit error retries while
attempts remain; an `APIError` retries only for a 5xx status code while
attempts remain; anything else about the outcome re-raises.  `fuel` is the
number of loop iterations remaining (`max_retries - attempt`). -/
def retryLoop (outcomes : Nat → CallOutcome)
    (max_retries : Nat) (initial_delay max_delay backoff_factor : ℚ) :
    Nat → Nat → RetryTrace
  | _, 0 => { result := RetryResult.raised CallOutcome.ok, calls := 0, sleeps := [] }
  | attempt, fuel + 1 =>
    match outcomes attempt with
    | CallOutcome.ok =>
      { result := RetryResult.success attempt, calls := 1, sleeps := [] }
    | CallOutcome.rateLimit =>
      if attempt < max_retries - 1 then
        let w := waitTime initial_delay max_delay backoff_factor attempt
        let rest := retryLoop outcomes max_retries initial_delay max_delay backoff_factor
          (attempt + 1) fuel
        { result := rest.result, calls := rest.calls + 1, sleeps := w :: rest.sleeps }
      else
        { result := RetryResult.raised CallOutcome.rateLimit, calls := 1, sleeps := [] }
    | CallOutcome.apiError code =>
      if 500 ≤ code ∧ code < 600 ∧ attempt < max_retries - 1 then
        let w := waitTime initial_delay max_delay backoff_factor attempt
        let rest := retryLoop outcomes max_retries initial_delay max_delay backoff_factor
          (attempt + 1) fuel
        { result := rest.result, calls := rest.calls + 1, sleeps := w :: rest.sleeps }
      else
        { result := RetryResult.raised (CallOutcome.apiError code), calls := 1, sleeps := [] }

/-- `retry_with_exponential_backoff` with its defaults (lines 19-25):
`max_retries=5, initial_delay=1.0, max_delay=60.0, backoff_factor=2.0` —
the parameters used for both external calls of `index_file`
(lines 180 and 193). -/
def retry_with_exponential_backoff (outcomes : Nat → CallOutcome) : RetryTrace :=
  retryLoop outcomes 5 1 60 2 0 5

/-- `derivatives/{aa}/{bb}/{sha256}/text.txt` (lines 114-116). -/
def textKeyOf (sha256 : String) : String :=
  "derivatives/" ++ sha256.take 2 ++ "/" ++ (sha256.drop 2).take 2
    ++ "/" ++ sha256 ++ "/text.txt"

/-- What the two wrapped external calls of one `index_file` run produce:
either a file id once both calls eventually succeed, or the exception that
exhausted/escaped the retries. -/
inductive IndexOutcome where
  | ok (file_id : String)
  | error (message err_type : String)
deriving DecidableEq, Repr

/-- `VectorStoreIndexer.index_file` (lines 125-223), reduced to its state
effects: mark `indexing` with empty-string error fields; run the two
retry-wrapped external calls (their combined outcome is the `outcome`
input); on success record the file id and vector store id and mark
`indexed`, again with empty-string error fields; on an exception mark
`failed_index` with the error recorded. -/
def index_file (db : DBState) (now : Nat) (sha256 record_s3_key vector_store_id : String)
    (dry_run : Bool) (outcome : IndexOutcome) : DBState × Option String :=
  if dry_run then (db, some "file-dryrun") else
  let db1 := upsert_file db now sha256 record_s3_key FileStatus.indexing
    { UpsertFields.noArgs with error_message := some "", error_type := some "" }
  match outcome with
  | IndexOutcome.ok file_id =>
    (upsert_file db1 now sha256 record_s3_key FileStatus.indexed
      { UpsertFields.noArgs with
        openai_file_id := some file_id
        vector_store_id := some vector_store_id
        error_message := some ""
        error_type := some "" }, some file_id)
  | IndexOutcome.error message err_type =>
    (upsert_file db1 now sha256 record_s3_key FileStatus.failed_index
      { UpsertFields.noArgs with
        error_message := some message
        error_type := some err_type }, none)

/-- `VectorStoreIndexer.list_unindexed_files` (lines 93-123): rows at
`processed`, as `(text_key, sha256)` pairs. -/
def list_unindexed_files (db : DBState) (max_files : Option Nat) :
    List (String × String) :=
  (get_files_for_indexing db max_files).map (fun r => (textKeyOf r.sha256, r.sha256))

/-- The candidate selection of `VectorStoreIndexer.index_batch`
(lines 248-259): list unindexed files, then apply the optional sha filter. -/
def index_batch_selection (db : DBState) (max_files : Option Nat)
    (filter_sha256 : Option (List String)) : List (String × String) :=
  filterBySha256 (list_unindexed_files db max_files) filter_sha256

/-! ## Orchestrator wiring of full mode

Two entry points exist.  `src/services/ingest/main.py` (lines 237-273) runs
full mode with `retry_failed=True` and `filter_sha256=None` for both
downstream stages.  The legacy `src/main.py` (lines 126-148) instead passes
the digests produced by the immediately preceding stage as `filter_sha256`
(and leaves `retry_failed` at the flag's value, default off). -/

/-- Extraction-stage selection of full mode in `src/services/ingest/main.py`
(lines 242-249): all currently-eligible rows, failures included, no digest
filter.  The just-synced hashes are a parameter only to show they are
ignored. -/
def ingestFullProcessSelection (db : DBState) (max_files : Option Nat)
    (_synced_hashes : List String) : List (String × String) :=
  process_batch_selection db max_files true none

/-- Indexing-stage selection of full mode in `src/services/ingest/main.py`
(lines 270-273): all rows at `processed`, no digest filter. -/
def ingestFullIndexSelection (db : DBState) (max_files : Option Nat)
    (_processed_hashes : List String) : List (String × String) :=
  index_batch_selection db max_files none

/-- Extraction-stage selection of full mode in the legacy `src/main.py`
(lines 129-135): the candidate list is filtered down to the digests the sync
stage just returned; `retry_failed` keeps the flag's value. -/
def legacyFullProcessSelection (db : DBState) (max_files : Option Nat)
    (retry_failed : Bool) (synced_hashes : List String) : List (String × String) :=
  process_batch_selection db max_files retry_failed (some synced_hashes)

/-- Indexing-stage selection of full mode in the legacy `src/main.py`
(lines 143-148): filtered down to the digests the process stage returned. -/
def legacyFullIndexSelection (db : DBState) (max_files : Option Nat)
    (processed_hashes : List String) : List (String × String) :=
  index_batch_selection db max_files (some processed_hashes)

/-! ## Jitter (spec-modelled)

Modelled from the spec: "exponential backoff **with jitter**" means the
sleep before a retry depends on a draw from a source of randomness, so that
concurrent clients do not sleep in lockstep.  A backoff schedule is a
function of the random draw and the attempt number; it has jitter when two
draws can give different sleeps for the same attempt. -/

/-- Modelled from the spec: a backoff schedule (sleep as a function of the
random draw and the attempt index) has jitter when the draw can change the
sleep. -/
def scheduleHasJitter (schedule : Nat → Nat → ℚ) : Prop :=
  ∃ draw1 draw2 attempt, schedule draw1 attempt ≠ schedule draw2 attempt

/-- The sleep schedule the indexer's retry wrapper actually performs
(line 52 / 62): `min(delay * factor ** attempt, max_delay)` with the
defaults.  The source draws no randomness, so the draw argument is unused. -/
def indexerSleepSchedule (_draw : Nat) (attempt : Nat) : ℚ :=
  waitTime 1 60 2 attempt

/-! ## Concrete fixtures

Small concrete values used to evaluate the embedded operations on explicit
inputs (for witnesses and counterexamples). -/

/-- A stand-in digest function for concrete runs. -/
def testHash : String → String := fun _ => "ff00aa11"

/-- Drive item whose modified time predates the stored watermark of `db9`. -/
def item9 : DriveItem :=
  { id := "g9", name := "a.txt", path := "docs/a.txt", mimeType := "text/plain",
    modifiedTime := "2025-01-01T00:00:00Z", content := "hello" }

/-- Database holding a watermark later than `item9`'s modified time. -/
def db9 : DBState :=
  { file_state := [], drive_file_mapping := [],
    checkpoint := [("drive_sync_last_modified", "2025-02-01T00:00:00Z")] }

/-- Drive item newer than the watermark of `db9w`. -/
def item9w : DriveItem :=
  { id := "g9", name := "a.txt", path := "docs/a.txt", mimeType := "text/plain",
    modifiedTime := "2025-03-01T00:00:00Z", content := "hello" }

/-- Database holding a watermark earlier than `item9w`'s modified time. -/
def db9w : DBState :=
  { file_state := [], drive_file_mapping := [],
    checkpoint := [("drive_sync_last_modified", "2025-01-01T00:00:00Z")] }

/-- Drive item with modified time before a given watermark (for C8). -/
def item8 : DriveItem :=
  { id := "g8", name := "a.txt", path := "docs/a.txt", mimeType := "text/plain",
    modifiedTime := "2025-01-01T00:00:00Z", content := "hello" }

/-- A sparse fast pass (5 characters, one page) with a hanging OCR pass. -/
def run6 : ExtractionRun :=
  { fast_elements := [{ text := "short", category := "NarrativeText" }],
    ocr_duration := 301, ocr_elements := [] }

/-- A clean row at `synced` with no prior errors (retry_count 0). -/
def record5 : FileRecord :=
  { sha256 := "ab12", drive_file_id := some "g5", drive_path := some "docs/a.txt",
    original_name := some "a.txt", s3_key := "objects/ab/12/ab12.txt",
    extension := some ".txt", status := FileStatus.synced, synced_at := some 1,
    processed_at := none, indexed_at := none, processed_text_size := none,
    openai_file_id := none, vector_store_id := none, error_message := none,
    error_type := none, retry_count := 0, last_error_at := none,
    created_at := 1, updated_at := 1 }

/-- Database holding only `record5`. -/
def db5 : DBState :=
  { file_state := [record5], drive_file_mapping := [], checkpoint := [] }

/-- A non-PDF extraction whose partition finishes quickly with real text. -/
def run5 : ExtractionRun :=
  { fast_elements := [], ocr_duration := 10,
    ocr_elements := [{ text := "Hello world.", category := "NarrativeText" }] }

/-- A non-PDF extraction whose partition yields only whitespace text. -/
def run3 : ExtractionRun :=
  { fast_elements := [], ocr_duration := 10,
    ocr_elements := [{ text := " ", category := "NarrativeText" },
                     { text := "", category := "PageBreak" }] }

/-- A fully indexed row (sha `"abcd"`, origin `g2`, name `x.txt`). -/
def record2 : FileRecord :=
  { sha256 := "abcd", drive_file_id := some "g2", drive_path := some "docs/x.txt",
    original_name := some "x.txt", s3_key := "objects/ab/cd/abcd.txt",
    extension := some ".txt", status := FileStatus.indexed, synced_at := some 1,
    processed_at := some 2, indexed_at := some 3, processed_text_size := some 12,
    openai_file_id := some "file-1", vector_store_id := some "vs-1",
    error_message := none, error_type := none, retry_count := 0,
    last_error_at := none, created_at := 1, updated_at := 3 }

/-- Database holding only `record2`. -/
def db2c : DBState :=
  { file_state := [record2], drive_file_mapping := [], checkpoint := [] }

/-- The same origin item as `record2` but renamed in the drive. -/
def item2r : DriveItem :=
  { id := "g2", name := "y.txt", path := "docs/x.txt", mimeType := "text/plain",
    modifiedTime := "2025-01-02T00:00:00Z", content := "hello" }

/-- A row at `failed_sync` left by an earlier failed upload of origin `g10`. -/
def record10 : FileRecord :=
  { sha256 := "ee99", drive_file_id := some "g10", drive_path := some "docs/f.txt",
    original_name := some "f.txt", s3_key := "objects/ee/99/ee99.txt",
    extension := some ".txt", status := FileStatus.failed_sync, synced_at := none,
    processed_at := none, indexed_at := none, processed_text_size := none,
    openai_file_id := none, vector_store_id := none,
    error_message := some "upload error", error_type := some "Exception",
    retry_count := 1, last_error_at := some 1, created_at := 1, updated_at := 1 }

/-- Database holding only `record10`. -/
def db10 : DBState :=
  { file_state := [record10], drive_file_mapping := [], checkpoint := [] }

/-- The unchanged drive item of origin `g10` (same path and name). -/
def item10 : DriveItem :=
  { id := "g10", name := "f.txt", path := "docs/f.txt", mimeType := "text/plain",
    modifiedTime := "2025-01-03T00:00:00Z", content := "payload" }

/-- Two drive items with identical bytes under distinct origin ids. -/
def item4a : DriveItem :=
  { id := "g4a", name := "a.txt", path := "p/a.txt", mimeType := "text/plain",
    modifiedTime := "2025-01-01T00:00:00Z", content := "same-bytes" }

/-- Second origin of the same bytes as `item4a`. -/
def item4b : DriveItem :=
  { id := "g4b", name := "b.txt", path := "p/b.txt", mimeType := "text/plain",
    modifiedTime := "2025-01-02T00:00:00Z", content := "same-bytes" }

/-- Call outcomes: the first two calls hit the rate limit, then success. -/
def out7 : Nat → CallOutcome :=
  fun k => if k < 2 then CallOutcome.rateLimit else CallOutcome.ok

/-- Call outcomes: every call fails with a 404 client error. -/
def out7b : Nat → CallOutcome :=
  fun _ => CallOutcome.apiError 404

/-! ## Helper lemmas about the state store -/

theorem upsertExisting_sha256 (e : FileRecord) (now : Nat) (key : String)
    (status : FileStatus) (f : UpsertFields) :
    (upsertExisting e now key status f).sha256 = e.sha256 := by
  unfold upsertExisting
  cases hm : f.error_message <;> simp only [hm] <;> split <;> try split
  all_goals try split
  all_goals rfl

theorem upsertExisting_status (e : FileRecord) (now : Nat) (key : String)
    (status : FileStatus) (f : UpsertFields) :
    (upsertExisting e now key status f).status = status := by
  unfold upsertExisting
  cases hm : f.error_message <;> simp only [hm] <;> split <;> try split
  all_goals try split
  all_goals rfl

theorem upsertExisting_error_some (e : FileRecord) (now : Nat) (key : String)
    (status : FileStatus) (f : UpsertFields) (m : String)
    (hm : f.error_message = some m) :
    (upsertExisting e now key status f).error_message = some m
    ∧ (upsertExisting e now key status f).error_type = f.error_type
    ∧ (upsertExisting e now key status f).retry_count = e.retry_count + 1
    ∧ (upsertExisting e now key status f).last_error_at = some now := by
  unfold upsertExisting
  simp only [hm]
  repeat' split
  all_goals exact ⟨rfl, rfl, rfl, rfl⟩

theorem upsertExisting_retry_le (e : FileRecord) (now : Nat) (key : String)
    (status : FileStatus) (f : UpsertFields) :
    e.retry_count ≤ (upsertExisting e now key status f).retry_count := by
  unfold upsertExisting
  cases hm : f.error_message <;> simp only [hm] <;> repeat' split
  all_goals first
    | exact Nat.le_refl _
    | exact Nat.le_succ _

theorem upsertExisting_synced_at (e : FileRecord) (now : Nat) (key : String)
    (status : FileStatus) (f : UpsertFields) :
    (upsertExisting e now key status f).synced_at = e.synced_at
    ∨ (e.synced_at = none
        ∧ (upsertExisting e now key status f).synced_at = some now) := by
  unfold upsertExisting
  cases hm : f.error_message <;> cases hp : f.processed_text_size <;>
    simp only [hm, hp] <;> repeat' split
  all_goals first
    | exact Or.inl rfl
    | (rename_i hcond
       right
       rw [Bool.and_eq_true] at hcond
       exact ⟨by simpa using hcond.2, rfl⟩)

theorem upsertExisting_processed_at (e : FileRecord) (now : Nat) (key : String)
    (status : FileStatus) (f : UpsertFields) :
    (upsertExisting e now key status f).processed_at = e.processed_at
    ∨ (e.processed_at = none
        ∧ (upsertExisting e now key status f).processed_at = some now) := by
  unfold upsertExisting
  cases hm : f.error_message <;> cases hp : f.processed_text_size <;>
    simp only [hm, hp] <;> repeat' split
  all_goals first
    | exact Or.inl rfl
    | (rename_i hcond
       right
       rw [Bool.and_eq_true] at hcond
       exact ⟨by simpa using hcond.2, rfl⟩)

theorem upsertExisting_indexed_at (e : FileRecord) (now : Nat) (key : String)
    (status : FileStatus) (f : UpsertFields) :
    (upsertExisting e now key status f).indexed_at = e.indexed_at
    ∨ (e.indexed_at = none
        ∧ (upsertExisting e now key status f).indexed_at = some now) := by
  unfold upsertExisting
  cases hm : f.error_message <;> cases hp : f.processed_text_size <;>
    simp only [hm, hp] <;> repeat' split
  all_goals first
    | exact Or.inl rfl
    | (rename_i hcond
       right
       rw [Bool.and_eq_true] at hcond
       exact ⟨by simpa using hcond.2, rfl⟩)

theorem upsertExisting_drive_file_id (e : FileRecord) (now : Nat) (key : String)
    (status : FileStatus) (f : UpsertFields) :
    (upsertExisting e now key status f).drive_file_id
      = overwriteIfProvided e.drive_file_id f.drive_file_id := by
  unfold upsertExisting
  cases hm : f.error_message <;> simp only [hm] <;> repeat' split
  all_goals rfl

theorem insertedRecord_status (now : Nat) (sha key : String)
    (status : FileStatus) (f : UpsertFields) :
    (insertedRecord now sha key status f).status = status := rfl

theorem insertedRecord_sha256 (now : Nat) (sha key : String)
    (status : FileStatus) (f : UpsertFields) :
    (insertedRecord now sha key status f).sha256 = sha := rfl

theorem upsert_file_checkpoint (db : DBState) (now : Nat) (sha key : String)
    (status : FileStatus) (f : UpsertFields) :
    (upsert_file db now sha key status f).checkpoint = db.checkpoint := by
  unfold upsert_file
  cases hg : get_file_by_sha256 db sha <;> simp only [hg]

theorem upsert_file_mapping (db : DBState) (now : Nat) (sha key : String)
    (status : FileStatus) (f : UpsertFields) :
    (upsert_file db now sha key status f).drive_file_mapping = db.drive_file_mapping := by
  unfold upsert_file
  cases hg : get_file_by_sha256 db sha <;> simp only [hg]

theorem find?_replace_map (l : List FileRecord) (sha : String) (r3 : FileRecord)
    (h3 : r3.sha256 = sha) :
    (l.map (fun r => if r.sha256 == sha then r3 else r)).find?
        (fun r => r.sha256 == sha)
      = (l.find? (fun r => r.sha256 == sha)).map (fun _ => r3) := by
  induction l with
  | nil => rfl
  | cons hd tl ih =>
    by_cases hh : hd.sha256 = sha
    · have hb : (hd.sha256 == sha) = true := by simpa using hh
      have hb3 : (r3.sha256 == sha) = true := by simpa using h3
      simp only [List.map_cons, List.find?_cons, hb, if_true, hb3, Option.map_some]
      rfl
    · have hb : (hd.sha256 == sha) = false := by simpa using hh
      simp only [List.map_cons, List.find?_cons, hb, Bool.false_eq_true, if_false]
      rw [ih]

theorem get_file_by_sha256_upsert_self (db : DBState) (now : Nat) (sha key : String)
    (status : FileStatus) (f : UpsertFields) :
    get_file_by_sha256 (upsert_file db now sha key status f) sha
      = some (match get_file_by_sha256 db sha with
              | some e => upsertExisting e now key status f
              | none => insertedRecord now sha key status f) := by
  cases hg : get_file_by_sha256 db sha with
  | some e =>
    have he : e.sha256 = sha := by
      have := List.find?_some hg
      simpa using this
    unfold upsert_file
    rw [hg]
    unfold get_file_by_sha256
    simp only []
    rw [find?_replace_map _ _ _ (by rw [upsertExisting_sha256]; exact he)]
    unfold get_file_by_sha256 at hg
    rw [hg]
    rfl
  | none =>
    unfold upsert_file
    rw [hg]
    unfold get_file_by_sha256 at hg ⊢
    simp only [List.find?_append, hg, Option.none_or]
    simp [insertedRecord_sha256]

theorem mem_upsert_file {db : DBState} {now : Nat} {sha key : String}
    {status : FileStatus} {f : UpsertFields} {r' : FileRecord}
    (h : r' ∈ (upsert_file db now sha key status f).file_state) :
    r'.status = status ∨ r' ∈ db.file_state := by
  unfold upsert_file at h
  cases hg : get_file_by_sha256 db sha with
  | some e =>
    rw [hg] at h
    simp only [List.mem_map] at h
    obtain ⟨r, hr, heq⟩ := h
    by_cases hh : r.sha256 = sha
    · left
      rw [← heq]
      simp [hh, upsertExisting_status]
    · right
      rw [← heq]
      simpa [hh] using hr
  | none =>
    rw [hg] at h
    simp only [List.mem_append, List.mem_singleton] at h
    rcases h with h | h
    · right; exact h
    · left; rw [h]; exact insertedRecord_status now sha key status f

theorem find?_pair_set_map (l : List (String × String)) (k v : String) :
    ((l.map (fun kv => if kv.1 == k then (kv.1, v) else kv)).find?
        (fun kv => kv.1 == k))
      = (l.find? (fun kv => kv.1 == k)).map (fun kv => (kv.1, v)) := by
  induction l with
  | nil => rfl
  | cons hd tl ih =>
    by_cases hh : hd.1 = k
    · have hb : (hd.1 == k) = true := by simpa using hh
      simp only [List.map_cons, List.find?_cons, hb, if_true, Option.map_some]
      simp [hb]
    · have hb : (hd.1 == k) = false := by simpa using hh
      simp only [List.map_cons, List.find?_cons, hb, Bool.false_eq_true, if_false]
      rw [ih]

theorem get_set_checkpoint (db : DBState) (k v : String) :
    get_checkpoint (set_checkpoint db k v) k = some v := by
  unfold get_checkpoint set_checkpoint
  by_cases hs : ((db.checkpoint.find? (fun kv => kv.1 == k)).isSome)
  · rw [if_pos hs]
    simp only [find?_pair_set_map]
    obtain ⟨x, hx⟩ := Option.isSome_iff_exists.mp hs
    rw [hx]
    rfl
  · rw [if_neg hs]
    have hn : db.checkpoint.find? (fun kv => kv.1 == k) = none :=
      Option.not_isSome_iff_eq_none.mp hs
    simp only [List.find?_append, hn, Option.none_or, List.find?_cons]
    simp

/-! ## Helper lemmas about the sync loop -/

theorem download_and_upload_file_checkpoint (hash : String → String) (now : Nat)
    (db : DBState) (item : DriveItem) (u d : Bool) :
    (download_and_upload_file hash now db item u d).1.checkpoint = db.checkpoint := by
  unfold download_and_upload_file
  repeat' split
  all_goals
    try (cases hx : get_file_by_sha256 db (hash item.content) <;> simp only [hx])
  all_goals simp [upsert_file_checkpoint]

theorem download_and_upload_file_mapping (hash : String → String) (now : Nat)
    (db : DBState) (item : DriveItem) (u d : Bool) :
    (download_and_upload_file hash now db item u d).1.drive_file_mapping
      = db.drive_file_mapping := by
  unfold download_and_upload_file
  repeat' split
  all_goals
    try (cases hx : get_file_by_sha256 db (hash item.content) <;> simp only [hx])
  all_goals simp [upsert_file_mapping]

theorem updateLatest_some_le {old cur : String} (h : old ≤ cur) (t : String) :
    ∃ m, updateLatest (some cur) t = some m ∧ old ≤ m := by
  by_cases hlt : cur < t
  · exact ⟨t, by simp [updateLatest, hlt], le_trans h (le_of_lt hlt)⟩
  · exact ⟨cur, by simp [updateLatest, hlt], h⟩

theorem syncStep_checkpoint (hash : String → String) (now : Nat) (d : Bool)
    (st : SyncLoopState) (it : DriveItem × Bool) :
    (syncStep hash now d st it).db.checkpoint = st.db.checkpoint := by
  have hc := download_and_upload_file_checkpoint hash now st.db it.1 it.2 d
  rcases hdl : download_and_upload_file hash now st.db it.1 it.2 d with ⟨db1, act, res⟩
  rw [hdl] at hc
  rcases res with _ | ⟨k, b, s⟩ <;> simp [syncStep, hdl] <;> simpa using hc

theorem syncLoop_checkpoint (hash : String → String) (now : Nat) (d : Bool)
    (items : List (DriveItem × Bool)) :
    ∀ st : SyncLoopState,
      (items.foldl (syncStep hash now d) st).db.checkpoint = st.db.checkpoint := by
  induction items with
  | nil => intro st; rfl
  | cons it rest ih =>
    intro st
    rw [List.foldl_cons, ih, syncStep_checkpoint]

theorem syncStep_latest {old : String} (hash : String → String) (now : Nat) (d : Bool)
    (st : SyncLoopState) (it : DriveItem × Bool) (m : String)
    (h1 : st.latest_modified = some m) (h2 : old ≤ m) :
    ∃ m2, (syncStep hash now d st it).latest_modified = some m2 ∧ old ≤ m2 := by
  rcases hdl : download_and_upload_file hash now st.db it.1 it.2 d with ⟨db1, act, res⟩
  rcases res with _ | ⟨k, b, s⟩
  · exact ⟨m, by simp [syncStep, hdl, h1], h2⟩
  · obtain ⟨m2, hm2, hle⟩ := updateLatest_some_le h2 it.1.modifiedTime
    refine ⟨m2, ?_, hle⟩
    simp only [syncStep, hdl, h1]
    exact hm2

theorem syncLoop_latest {old : String} (hash : String → String) (now : Nat) (d : Bool)
    (items : List (DriveItem × Bool)) :
    ∀ (st : SyncLoopState) (m : String),
      st.latest_modified = some m → old ≤ m →
      ∃ m2, (items.foldl (syncStep hash now d) st).latest_modified = some m2
        ∧ old ≤ m2 := by
  induction items with
  | nil => exact fun st m h1 h2 => ⟨m, h1, h2⟩
  | cons it rest ih =>
    intro st m h1 h2
    rw [List.foldl_cons]
    obtain ⟨m2, hm2, hle⟩ := @syncStep_latest old hash now d st it m h1 h2
    exact ih _ m2 hm2 hle

theorem get_checkpoint_congr {db1 db2 : DBState} (k : String)
    (h : db1.checkpoint = db2.checkpoint) :
    get_checkpoint db1 k = get_checkpoint db2 k := by
  unfold get_checkpoint
  rw [h]

/-- C9 (amended): for a run of `sync` started without `--force-full` that
completes with at least one successful item, the watermark stored under
`drive_sync_last_modified` after the run is ≥ the one stored before; with
`--force-full` the stored watermark can decrease (see the counterexample). -/
theorem c9_checkpoint_monotone_without_force_full
    (hash : String → String) (now : Nat) (db0 : DBState)
    (items : List (DriveItem × Bool)) (dry_run : Bool) (old : String)
    (hstored : get_checkpoint db0 "drive_sync_last_modified" = some old)
    (hsucc : 0 < (sync hash now db0 items false dry_run).2.1) :
    ∃ newv,
      get_checkpoint (sync hash now db0 items false dry_run).1
          "drive_sync_last_modified" = some newv
        ∧ old ≤ newv := by
  cases dry_run with
  | true =>
    refine ⟨old, ?_, le_refl old⟩
    unfold sync
    simp only [Bool.false_eq_true, if_false, if_true]
    set F := items.foldl (syncStep hash now true)
      { db := db0, successful := 0, failed := 0,
        latest_modified := none, synced_sha256_hashes := [] } with hF
    have hck : F.db.checkpoint = db0.checkpoint := by
      rw [hF]; exact syncLoop_checkpoint hash now true items _
    by_cases h0 : (F.successful == 0 && F.failed == 0) = true
    · rw [if_pos h0]
      rw [← hstored]
      exact get_checkpoint_congr _ hck
    · rw [if_neg h0]
      rcases hl : F.latest_modified with _ | t
      · simp only []
        rw [← hstored]
        exact get_checkpoint_congr _ hck
      · simp only [Bool.not_true, Bool.and_false, Bool.false_eq_true, if_false]
        rw [← hstored]
        exact get_checkpoint_congr _ hck
  | false =>
    unfold sync at hsucc ⊢
    simp only [Bool.false_eq_true, if_false] at hsucc ⊢
    rw [hstored] at hsucc ⊢
    set F := items.foldl (syncStep hash now false)
      { db := db0, successful := 0, failed := 0,
        latest_modified := some old, synced_sha256_hashes := [] } with hF
    obtain ⟨m, hm, hle⟩ := @syncLoop_latest old hash now false items
      { db := db0, successful := 0, failed := 0,
        latest_modified := some old, synced_sha256_hashes := [] } old rfl (le_refl old)
    rw [← hF] at hm
    by_cases h0 : (F.successful == 0 && F.failed == 0) = true
    · rw [if_pos h0] at hsucc
      simp at hsucc
    · rw [if_neg h0] at hsucc ⊢
      simp only [] at hsucc
      rw [hm]
      have hpos : (decide (F.successful > 0)) = true := by
        simp only [decide_eq_true_eq]
        exact hsucc
      simp only [hpos, Bool.not_false, Bool.and_true, if_true]
      exact ⟨m, get_set_checkpoint F.db _ m, hle⟩

/-- Witness for C9: a run over `db9w` with one successful newer item
satisfies the hypotheses, and the theorem applies. -/
theorem c9_witness :
    get_checkpoint db9w "drive_sync_last_modified" = some "2025-01-01T00:00:00Z"
    ∧ 0 < (sync testHash 3 db9w [(item9w, false)] false false).2.1
    ∧ ∃ newv,
        get_checkpoint (sync testHash 3 db9w [(item9w, false)] false false).1
            "drive_sync_last_modified" = some newv
          ∧ "2025-01-01T00:00:00Z" ≤ newv :=
  ⟨rfl, by decide,
    c9_checkpoint_monotone_without_force_full testHash 3 db9w [(item9w, false)]
      false "2025-01-01T00:00:00Z" rfl (by decide)⟩

/-- Counterexample for C9 as stated: a `--force-full` run over `db9` with one
successful item whose modified time predates the stored watermark rewrites
the checkpoint to a strictly smaller value. -/
theorem c9_counterexample :
    get_checkpoint db9 "drive_sync_last_modified" = some "2025-02-01T00:00:00Z"
    ∧ 0 < (sync testHash 3 db9 [(item9, false)] true false).2.1
    ∧ get_checkpoint (sync testHash 3 db9 [(item9, false)] true false).1
        "drive_sync_last_modified" = some "2025-01-01T00:00:00Z"
    ∧ ("2025-01-01T00:00:00Z" : String) < "2025-02-01T00:00:00Z" := by
  refine ⟨rfl, by decide, by decide, ?_⟩
  rw [String.lt_iff_toList_lt]
  decide

/-- C8 (amended): the drive listing, when given a `modified_after` bound,
yields only items strictly newer than it; but `sync` builds the traversal it
consumes with `modified_after=None` (and `max_files=None`), so every accepted
drive item is yielded to sync regardless of the stored watermark. -/
theorem c8_sync_traversal_ignores_watermark
    (driveItems : List DriveItem) (exts : List String) (w : String) (it : DriveItem) :
    (it ∈ list_files_from_drive driveItems exts none (some w) → w < it.modifiedTime)
    ∧ (it ∈ driveItems → driveItemAccepted exts it = true →
        it ∈ syncTraversal driveItems exts) := by
  constructor
  · intro hmem
    unfold list_files_from_drive at hmem
    simp only [List.mem_filter, Bool.and_eq_true] at hmem
    have hq := hmem.2.1
    simpa [driveQueryMatches] using hq
  · intro hmem hacc
    unfold syncTraversal list_files_from_drive
    simp only [List.mem_filter, Bool.and_eq_true]
    exact ⟨hmem, by simp [driveQueryMatches], hacc⟩

/-- Witness for C8's amended statement, at concrete inputs: `item8` is newer
than the watermark `"2024-12-31..."`, so the filtered listing retains it and
the first conjunct applies; and the unfiltered sync traversal yields it. -/
theorem c8_witness :
    item8 ∈ syncTraversal [item8] [".txt"]
    ∧ ("2024-12-31T00:00:00Z" : String) < item8.modifiedTime := by
  have h := c8_sync_traversal_ignores_watermark [item8] [".txt"]
    "2024-12-31T00:00:00Z" item8
  refine ⟨h.2 (by decide) (by decide), ?_⟩
  apply h.1
  unfold list_files_from_drive
  simp only [List.mem_filter, Bool.and_eq_true]
  have hq : ("2024-12-31T00:00:00Z" : String) < item8.modifiedTime := by
    rw [String.lt_iff_toList_lt]; decide
  exact ⟨by decide, by simp [driveQueryMatches, hq], by decide⟩

/-- C6: for every PDF, if `chars_per_page = total_chars / max(1, pages)` of
the fast pass is at least 200 the fast result is kept with strategy `fast`;
otherwise the OCR pass runs under the hard 300-second timeout, and if the
timeout fires the fast result is used with strategy `fast_fallback` (and if
it completes in time, its result is used with strategy `ocr`). -/
theorem c6_pdf_strategy_policy (run : ExtractionRun) :
    ((200 : ℚ) ≤ (totalChars run.fast_elements : ℚ)
        / (max 1 (pagesOf run.fast_elements) : ℚ) →
      pdf_extract run = (run.fast_elements, "fast"))
    ∧ ((totalChars run.fast_elements : ℚ)
          / (max 1 (pagesOf run.fast_elements) : ℚ) < 200 →
        300 < run.ocr_duration →
        pdf_extract run = (run.fast_elements, "fast_fallback"))
    ∧ ((totalChars run.fast_elements : ℚ)
          / (max 1 (pagesOf run.fast_elements) : ℚ) < 200 →
        run.ocr_duration ≤ 300 →
        pdf_extract run = (run.ocr_elements, "ocr")) := by
  unfold pdf_extract process_with_timeout
  refine ⟨fun h => ?_, fun h1 h2 => ?_, fun h1 h2 => ?_⟩
  · rw [if_pos h]
  · rw [if_neg (not_le.mpr h1), if_neg (not_le.mpr h2)]
  · rw [if_neg (not_le.mpr h1), if_pos h2]

/-- Witness for C6: `run6` has 5 characters on one page (density below 200)
and its OCR pass exceeds 300 s, so the fast result is kept with strategy
`fast_fallback`. -/
theorem c6_witness :
    ((totalChars run6.fast_elements : ℚ)
        / (max 1 (pagesOf run6.fast_elements) : ℚ) < 200)
    ∧ (300 : Nat) < run6.ocr_duration
    ∧ pdf_extract run6 = (run6.fast_elements, "fast_fallback") := by
  have hlt : (totalChars run6.fast_elements : ℚ)
      / (max 1 (pagesOf run6.fast_elements) : ℚ) < 200 := by
    have h1 : totalChars run6.fast_elements = 5 := by decide
    have h2 : pagesOf run6.fast_elements = 1 := by decide
    rw [h1, h2]
    norm_num
  exact ⟨hlt, by decide, (c6_pdf_strategy_policy run6).2.1 hlt (by decide)⟩

/-! ### Retry loop lemmas (C7) -/

theorem retryLoop_calls_pos (outcomes : Nat → CallOutcome) (m : Nat) (d md bf : ℚ)
    (attempt fuel : Nat) (h : 1 ≤ fuel) :
    1 ≤ (retryLoop outcomes m d md bf attempt fuel).calls := by
  cases fuel with
  | zero => omega
  | succ n =>
    unfold retryLoop
    cases houtcome : outcomes attempt <;> simp only [houtcome]
    · exact Nat.le_refl 1
    · split
      · exact Nat.succ_le_succ (Nat.zero_le _)
      · exact Nat.le_refl 1
    · split
      · exact Nat.succ_le_succ (Nat.zero_le _)
      · exact Nat.le_refl 1

theorem retryLoop_calls_le_fuel (outcomes : Nat → CallOutcome) (m : Nat)
    (d md bf : ℚ) :
    ∀ fuel attempt, (retryLoop outcomes m d md bf attempt fuel).calls ≤ fuel := by
  intro fuel
  induction fuel with
  | zero => intro attempt; exact Nat.le_refl 0
  | succ n ih =>
    intro attempt
    unfold retryLoop
    cases houtcome : outcomes attempt <;> simp only [houtcome]
    · exact Nat.succ_le_succ (Nat.zero_le n)
    · split
      · exact Nat.succ_le_succ (ih (attempt + 1))
      · exact Nat.succ_le_succ (Nat.zero_le n)
    · split
      · exact Nat.succ_le_succ (ih (attempt + 1))
      · exact Nat.succ_le_succ (Nat.zero_le n)

theorem retryLoop_sleeps_eq (outcomes : Nat → CallOutcome) (m : Nat) (d md bf : ℚ) :
    ∀ fuel attempt, attempt + fuel = m →
    (retryLoop outcomes m d md bf attempt fuel).sleeps
      = (List.range ((retryLoop outcomes m d md bf attempt fuel).calls - 1)).map
          (fun k => waitTime d md bf (attempt + k)) := by
  intro fuel
  induction fuel with
  | zero => intro attempt h; simp [retryLoop]
  | succ n ih =>
    intro attempt h
    unfold retryLoop
    cases houtcome : outcomes attempt <;> simp only [houtcome]
    · simp
    · split
      · rename_i hlt
        have hn1 : 1 ≤ n := by omega
        have hrest := ih (attempt + 1) (by omega)
        have hpos := retryLoop_calls_pos outcomes m d md bf (attempt + 1) n hn1
        dsimp only
        rw [hrest]
        obtain ⟨rc, hrc⟩ : ∃ rc,
            (retryLoop outcomes m d md bf (attempt + 1) n).calls = rc + 1 :=
          ⟨_, (Nat.succ_pred_eq_of_pos hpos).symm⟩
        rw [hrc]
        simp only [Nat.add_sub_cancel, List.range_succ_eq_map, List.map_cons,
          List.map_map, Nat.add_zero]
        congr 1
        apply List.map_congr_left
        intro k _
        simp only [Function.comp]
        congr 1
        omega
      · simp
    · split
      · rename_i hcond
        have hn1 : 1 ≤ n := by omega
        have hrest := ih (attempt + 1) (by omega)
        have hpos := retryLoop_calls_pos outcomes m d md bf (attempt + 1) n hn1
        dsimp only
        rw [hrest]
        obtain ⟨rc, hrc⟩ : ∃ rc,
            (retryLoop outcomes m d md bf (attempt + 1) n).calls = rc + 1 :=
          ⟨_, (Nat.succ_pred_eq_of_pos hpos).symm⟩
        rw [hrc]
        simp only [Nat.add_sub_cancel, List.range_succ_eq_map, List.map_cons,
          List.map_map, Nat.add_zero]
        congr 1
        apply List.map_congr_left
        intro k _
        simp only [Function.comp]
        congr 1
        omega
      · simp

/-- C7 (amended): both wrapped external calls retry with exponential backoff
without jitter — at most 5 calls; the k-th sleep is exactly
`min(1 · 2^k, 60)` seconds (deterministic); a rate-limit error on the first
call is retried; a 5xx `APIError` on the first call is retried; any other
`APIError` (4xx other than rate limit) is re-raised after a single call. -/
theorem c7_backoff_policy (outcomes : Nat → CallOutcome) :
    (retry_with_exponential_backoff outcomes).calls ≤ 5
    ∧ (retry_with_exponential_backoff outcomes).sleeps
        = (List.range ((retry_with_exponential_backoff outcomes).calls - 1)).map
            (waitTime 1 60 2)
    ∧ (∀ k, waitTime 1 60 2 k = min ((2 : ℚ) ^ k) 60)
    ∧ (outcomes 0 = CallOutcome.rateLimit →
        2 ≤ (retry_with_exponential_backoff outcomes).calls)
    ∧ (∀ code, outcomes 0 = CallOutcome.apiError code → 500 ≤ code → code < 600 →
        2 ≤ (retry_with_exponential_backoff outcomes).calls)
    ∧ (∀ code, outcomes 0 = CallOutcome.apiError code → ¬ (500 ≤ code ∧ code < 600) →
        (retry_with_exponential_backoff outcomes).calls = 1
        ∧ (retry_with_exponential_backoff outcomes).result
            = RetryResult.raised (CallOutcome.apiError code)) := by
  refine ⟨retryLoop_calls_le_fuel outcomes 5 1 60 2 5 0, ?_, ?_, ?_, ?_, ?_⟩
  · have h := retryLoop_sleeps_eq outcomes 5 1 60 2 5 0 (by omega)
    simpa [retry_with_exponential_backoff] using h
  · intro k
    simp [waitTime]
  · intro h0
    unfold retry_with_exponential_backoff retryLoop
    simp only [h0]
    rw [if_pos (show (0 : Nat) < 5 - 1 by omega)]
    exact Nat.succ_le_succ (retryLoop_calls_pos outcomes 5 1 60 2 1 4 (by omega))
  · intro code h0 h5 h6
    unfold retry_with_exponential_backoff retryLoop
    simp only [h0]
    rw [if_pos (show 500 ≤ code ∧ code < 600 ∧ (0 : Nat) < 5 - 1 from
      ⟨h5, h6, by omega⟩)]
    exact Nat.succ_le_succ (retryLoop_calls_pos outcomes 5 1 60 2 1 4 (by omega))
  · intro code h0 hnot
    unfold retry_with_exponential_backoff retryLoop
    simp only [h0]
    rw [if_neg (show ¬ (500 ≤ code ∧ code < 600 ∧ (0 : Nat) < 5 - 1) from
      fun hc => hnot ⟨hc.1, hc.2.1⟩)]
    exact ⟨rfl, rfl⟩

/-- Witness for C7's amended statement: with two rate-limited calls then
success, the retry wrapper makes at least two calls; with a 404 it makes
exactly one call and re-raises. -/
theorem c7_witness :
    out7 0 = CallOutcome.rateLimit
    ∧ 2 ≤ (retry_with_exponential_backoff out7).calls
    ∧ out7b 0 = CallOutcome.apiError 404
    ∧ (retry_with_exponential_backoff out7b).calls = 1
    ∧ (retry_with_exponential_backoff out7b).result
        = RetryResult.raised (CallOutcome.apiError 404) := by
  have h1 := c7_backoff_policy out7
  have h2 := c7_backoff_policy out7b
  have h404 := h2.2.2.2.2.2 404 rfl (by omega)
  exact ⟨rfl, h1.2.2.2.1 rfl, rfl, h404.1, h404.2⟩

/-- Counterexample for C7 as stated: the backoff has no jitter — the sleep
before a given retry attempt is independent of any random draw (and equals
`min(2^attempt, 60)` exactly). -/
theorem c7_counterexample :
    indexerSleepSchedule 0 3 = 8
    ∧ indexerSleepSchedule 123456 3 = 8
    ∧ ¬ scheduleHasJitter indexerSleepSchedule := by
  refine ⟨by norm_num [indexerSleepSchedule, waitTime],
    by norm_num [indexerSleepSchedule, waitTime], ?_⟩
  rintro ⟨d1, d2, k, hne⟩
  exact hne rfl

/-- Counterexample for C8 as stated: with a stored watermark of
`"2025-02-01..."`, the traversal that sync consumes still yields `item8`,
whose modified time is not strictly after the watermark. -/
theorem c8_counterexample :
    syncTraversal [item8] [".txt"] = [item8]
    ∧ ¬ (("2025-02-01T00:00:00Z" : String) < item8.modifiedTime) := by
  refine ⟨by decide, ?_⟩
  rw [String.lt_iff_toList_lt]
  decide

/-- C3: when the extraction worker actually runs (the row is not already at
`processed`/`indexing`/`indexed`, not a dry run) and the partitioned
elements concatenate to whitespace-only text, the record is transitioned to
`failed_process` with error kind `EmptyContentError`, and the operation does
not report success — the record does not reach `processed`. -/
theorem c3_empty_content_fails_process
    (db : DBState) (now : Nat) (sha256 s3_key ext : String) (run : ExtractionRun)
    (elements : List Element)
    (hguard : ∀ r, get_file_by_sha256 db sha256 = some r →
        r.status ≠ FileStatus.processed ∧ r.status ≠ FileStatus.indexing
          ∧ r.status ≠ FileStatus.indexed)
    (hpart : partitionDocument ext run = Except.ok elements)
    (hempty : (pyStrip (concatText elements)).length = 0) :
    ((get_file_by_sha256 (process_single_file db now sha256 s3_key ext false run).1
        sha256).map (fun r => (r.status, r.error_type)))
      = some (FileStatus.failed_process, some "EmptyContentError")
    ∧ (process_single_file db now sha256 s3_key ext false run).2 = none := by
  have hskip : (match get_file_by_sha256 db sha256 with
      | some r => r.status == FileStatus.processed || r.status == FileStatus.indexing
          || r.status == FileStatus.indexed
      | none => false) = false := by
    cases hg : get_file_by_sha256 db sha256 with
    | none => rfl
    | some r =>
      obtain ⟨h1, h2, h3⟩ := hguard r hg
      simp [h1, h2, h3]
  have hrun : process_single_file db now sha256 s3_key ext false run
      = (upsert_file
          (upsert_file db now sha256 s3_key FileStatus.processing
            { UpsertFields.noArgs with error_message := some "", error_type := some "" })
          now sha256 s3_key FileStatus.failed_process
          { UpsertFields.noArgs with
            extension := some ext
            processed_text_size := some 0
            error_message := some emptyContentMessage
            error_type := some "EmptyContentError" },
         none) := by
    simp only [process_single_file]
    rw [hskip]
    simp only [Bool.false_eq_true, if_false]
    rw [hpart]
    simp only [hempty]
    simp
  rw [hrun]
  constructor
  · simp only [get_file_by_sha256_upsert_self, Option.map_some, Option.map_some']
    rw [upsertExisting_status]
    rw [(upsertExisting_error_some _ now s3_key FileStatus.failed_process _
      emptyContentMessage rfl).2.1]
  · rfl

/-- Witness for C3: processing `record5` (at `synced`) with the
whitespace-only partition `run3` marks it `failed_process` with
`EmptyContentError` and reports no success. -/
theorem c3_witness :
    ((get_file_by_sha256 (process_single_file db5 2 "ab12" "objects/ab/12/ab12.txt"
        ".txt" false run3).1 "ab12").map (fun r => (r.status, r.error_type)))
      = some (FileStatus.failed_process, some "EmptyContentError")
    ∧ (process_single_file db5 2 "ab12" "objects/ab/12/ab12.txt" ".txt" false run3).2
        = none :=
  c3_empty_content_fails_process db5 2 "ab12" "objects/ab/12/ab12.txt" ".txt" run3
    [{ text := " ", category := "NarrativeText" },
     { text := "", category := "PageBreak" }]
    (by
      intro r hr
      have hg : get_file_by_sha256 db5 "ab12" = some record5 := by decide
      rw [hg] at hr
      cases Option.some.inj hr
      exact ⟨by decide, by decide, by decide⟩)
    rfl (by decide)

/-- C5 (amended): every stage transition that passes empty-string error
fields — as all successful transitions of the extraction and indexing stages
do (`error_message=""`, `error_type=""`) — sets `error_message` and
`error_type` to the empty string rather than NULL, sets `last_error_at`, and
increments `retry_count` by one, because `upsert_file` treats the provided
empty string as a present error (`is not None`); the stage-success
timestamps are set when currently NULL and are otherwise left unchanged —
never cleared. -/
theorem c5_successful_transition_effects
    (e : FileRecord) (now : Nat) (key : String) (status : FileStatus)
    (f : UpsertFields) (hm : f.error_message = some "") :
    (upsertExisting e now key status f).error_message = some ""
    ∧ (upsertExisting e now key status f).error_type = f.error_type
    ∧ (upsertExisting e now key status f).retry_count = e.retry_count + 1
    ∧ (upsertExisting e now key status f).last_error_at = some now
    ∧ ((upsertExisting e now key status f).synced_at = e.synced_at
        ∨ (e.synced_at = none
            ∧ (upsertExisting e now key status f).synced_at = some now))
    ∧ ((upsertExisting e now key status f).processed_at = e.processed_at
        ∨ (e.processed_at = none
            ∧ (upsertExisting e now key status f).processed_at = some now))
    ∧ ((upsertExisting e now key status f).indexed_at = e.indexed_at
        ∨ (e.indexed_at = none
            ∧ (upsertExisting e now key status f).indexed_at = some now)) := by
  obtain ⟨a, b, c, d2⟩ := upsertExisting_error_some e now key status f "" hm
  exact ⟨a, b, c, d2, upsertExisting_synced_at e now key status f,
    upsertExisting_processed_at e now key status f,
    upsertExisting_indexed_at e now key status f⟩

/-- Witness for C5's amended statement at a concrete row: marking `record5`
as `processing` with empty-string error fields increments its retry count
from 0 to 1 and stores the empty strings. -/
theorem c5_witness :
    (upsertExisting record5 2 "objects/ab/12/ab12.txt" FileStatus.processing
        { UpsertFields.noArgs with
          error_message := some ""
          error_type := some "" }).error_message = some ""
    ∧ (upsertExisting record5 2 "objects/ab/12/ab12.txt" FileStatus.processing
        { UpsertFields.noArgs with
          error_message := some ""
          error_type := some "" }).retry_count = record5.retry_count + 1 := by
  have h := c5_successful_transition_effects record5 2 "objects/ab/12/ab12.txt"
    FileStatus.processing
    { UpsertFields.noArgs with error_message := some "", error_type := some "" } rfl
  exact ⟨h.1, h.2.2.1⟩

/-- Counterexample for C5 as stated: processing `record5` (a fully
successful run, ending at `processed`) leaves `retry_count = 2` — one
increment for the `processing` mark and one for the `processed` mark — and
sets `processed_at`, although the claim says successful transitions leave
`retry_count` and the stage timestamps unchanged and that `retry_count`
increases only on failed transitions. -/
theorem c5_counterexample :
    record5.retry_count = 0
    ∧ ((get_file_by_sha256 (process_single_file db5 2 "ab12"
          "objects/ab/12/ab12.txt" ".txt" false run5).1 "ab12").map
        (fun r => (r.status, r.retry_count, r.error_message, r.processed_at)))
      = some (FileStatus.processed, 2, some "", some 2) := by
  refine ⟨rfl, ?_⟩
  decide

/-- C2 (amended): the extraction and indexing stages never move a record to
`synced` (any row at `synced` after them was already present before); but
the sync stage's metadata-only path upserts the mapped record back to
`synced` unconditionally, whatever its previous status — so a record at
`processed`/`indexing`/`indexed` can return to `synced` when its origin is
renamed (and likewise on the content-dedupe path). -/
theorem c2_stage_writes_and_sync_reset :
    (∀ (db : DBState) (now : Nat) (sha256 s3_key ext : String) (dr : Bool)
        (run : ExtractionRun) (r' : FileRecord),
        r' ∈ (process_single_file db now sha256 s3_key ext dr run).1.file_state →
        r'.status = FileStatus.synced → r' ∈ db.file_state)
    ∧ (∀ (db : DBState) (now : Nat) (sha256 s3_key vsid : String) (dr : Bool)
        (out : IndexOutcome) (r' : FileRecord),
        r' ∈ (index_file db now sha256 s3_key vsid dr out).1.file_state →
        r'.status = FileStatus.synced → r' ∈ db.file_state)
    ∧ (∀ (hash : String → String) (now : Nat) (db : DBState) (item : DriveItem)
        (existing_key : String),
        file_already_synced db item.id item.path item.name
          = some (existing_key, true) →
        ((get_file_by_sha256 (download_and_upload_file hash now db item false false).1
            (pathStem existing_key)).map (fun r => r.status))
          = some FileStatus.synced) := by
  refine ⟨?_, ?_, ?_⟩
  · intro db now sha256 s3_key ext dr run r' hmem hst
    simp only [process_single_file] at hmem
    split at hmem
    · exact hmem
    · split at hmem
      · exact hmem
      · split at hmem
        · rcases mem_upsert_file hmem with h | h
          · rw [hst] at h; exact absurd h (by decide)
          · rcases mem_upsert_file h with h2 | h2
            · rw [hst] at h2; exact absurd h2 (by decide)
            · exact h2
        · split at hmem
          · rcases mem_upsert_file hmem with h | h
            · rw [hst] at h; exact absurd h (by decide)
            · rcases mem_upsert_file h with h2 | h2
              · rw [hst] at h2; exact absurd h2 (by decide)
              · exact h2
          · rcases mem_upsert_file hmem with h | h
            · rw [hst] at h; exact absurd h (by decide)
            · rcases mem_upsert_file h with h2 | h2
              · rw [hst] at h2; exact absurd h2 (by decide)
              · exact h2
  · intro db now sha256 s3_key vsid dr out r' hmem hst
    simp only [index_file] at hmem
    split at hmem
    · exact hmem
    · split at hmem
      · rcases mem_upsert_file hmem with h | h
        · rw [hst] at h; exact absurd h (by decide)
        · rcases mem_upsert_file h with h2 | h2
          · rw [hst] at h2; exact absurd h2 (by decide)
          · exact h2
      · rcases mem_upsert_file hmem with h | h
        · rw [hst] at h; exact absurd h (by decide)
        · rcases mem_upsert_file h with h2 | h2
          · rw [hst] at h2; exact absurd h2 (by decide)
          · exact h2
  · intro hash now db item existing_key hfa
    unfold download_and_upload_file
    rw [hfa]
    simp only [if_true, Bool.false_eq_true, if_false]
    rw [get_file_by_sha256_upsert_self]
    cases hg : get_file_by_sha256 db (pathStem existing_key) <;>
      simp [hg, upsertExisting_status, insertedRecord_status]

/-- Witness for C2's amended statement: applying the sync-reset conjunct to
the renamed origin item of the indexed row `record2` shows the row ends at
`synced`. -/
theorem c2_witness :
    ((get_file_by_sha256 (download_and_upload_file testHash 5 db2c item2r
        false false).1 (pathStem "objects/ab/cd/abcd.txt")).map (fun r => r.status))
      = some FileStatus.synced :=
  c2_stage_writes_and_sync_reset.2.2 testHash 5 db2c item2r
    "objects/ab/cd/abcd.txt" (by decide)

/-- Counterexample for C2 as stated: `record2` sits at `indexed`; syncing its
renamed origin item moves it back to `synced` (its `indexed_at` stamp
remains), an edge absent from the spec's state graph. -/
theorem c2_counterexample :
    record2.status = FileStatus.indexed
    ∧ ((get_file_by_sha256 (download_and_upload_file testHash 5 db2c item2r
          false false).1 "abcd").map (fun r => (r.status, r.indexed_at)))
        = some (FileStatus.synced, some 3) := by
  refine ⟨rfl, ?_⟩
  decide

/-- C10: the origin fast-path matches rows regardless of status, so a drive
item whose origin id is already recorded — even on a `failed_sync` row from
a failed upload — with unchanged path and name is recorded as a skip:
no download, no upload, no state change; iterating later sync runs over the
same item never re-attempts the upload. -/
theorem c10_failed_sync_never_retried
    (hash : String → String) (now : Nat) (db : DBState) (item : DriveItem)
    (r : FileRecord) (u d : Bool)
    (hfind : get_file_by_drive_id db item.id = some r)
    (_hstatus : r.status = FileStatus.failed_sync)
    (hpath : r.drive_path = some item.path)
    (hname : r.original_name = some item.name) :
    download_and_upload_file hash now db item u d
      = (db, SyncAction.skip r.s3_key (pathStem r.s3_key),
         some (r.s3_key, false, pathStem r.s3_key))
    ∧ ∀ n, (fun s => (download_and_upload_file hash now s item u d).1)^[n] db = db := by
  have hfa : file_already_synced db item.id item.path item.name
      = some (r.s3_key, false) := by
    unfold file_already_synced
    rw [hfind]
    simp [hpath, hname]
  have hone : download_and_upload_file hash now db item u d
      = (db, SyncAction.skip r.s3_key (pathStem r.s3_key),
         some (r.s3_key, false, pathStem r.s3_key)) := by
    unfold download_and_upload_file
    rw [hfa]
    simp
  refine ⟨hone, ?_⟩
  intro n
  induction n with
  | zero => rfl
  | succ k ih =>
    rw [Function.iterate_succ_apply', ih]
    simp only [hone]

/-- Witness for C10: the failed-upload row `record10` matches the unchanged
drive item `item10`, so a later sync run records a skip and leaves the state
untouched. -/
theorem c10_witness :
    download_and_upload_file testHash 9 db10 item10 false false
      = (db10, SyncAction.skip record10.s3_key (pathStem record10.s3_key),
         some (record10.s3_key, false, pathStem record10.s3_key))
    ∧ (fun s => (download_and_upload_file testHash 9 s item10 false false).1)^[3] db10
        = db10 := by
  have h := c10_failed_sync_never_retried testHash 9 db10 item10 record10
    false false (by decide) rfl rfl rfl
  exact ⟨h.1, h.2 3⟩

/-- The content fast-path branch of `download_and_upload_file` in isolation:
with no origin match and an existing row for the digest, the item is
dedupe-linked (no upload) and the row upserted back to `synced` with the new
origin snapshot. -/
theorem download_dedupe_branch (hash : String → String) (now : Nat) (db : DBState)
    (item : DriveItem) (r : FileRecord)
    (hfa : file_already_synced db item.id item.path item.name = none)
    (hg : get_file_by_sha256 db (hash item.content) = some r) :
    download_and_upload_file hash now db item false false
      = (upsert_file db now (hash item.content)
          (casObjectKey (hash item.content) (suffixLower (exportFileName item)))
          FileStatus.synced
          { UpsertFields.noArgs with
            drive_file_id := some item.id
            drive_path := some item.path
            original_name := some item.name
            extension := some (suffixLower (exportFileName item)) },
         SyncAction.dedupeLink
           (casObjectKey (hash item.content) (suffixLower (exportFileName item)))
           (hash item.content),
         some (casObjectKey (hash item.content) (suffixLower (exportFileName item)),
           false, hash item.content)) := by
  unfold download_and_upload_file
  rw [hfa]
  simp only []
  rw [hg]
  rfl

/-- C4 (amended): syncing the same bytes under two distinct origin ids into
an empty state store yields exactly one `file_state` row; the second sync
takes the content fast-path (`dedupeLink`, `is_new = false` — no re-upload)
and overwrites the single row's `drive_file_id` with the second origin id;
no `drive_file_mapping` (OriginMapping) rows are created — the pipeline
never calls `upsert_drive_mapping`. -/
theorem c4_dedup_single_record_no_mapping
    (hash : String → String) (now1 now2 : Nat) (item1 item2 : DriveItem)
    (hcontent : item2.content = item1.content)
    (hid : item1.id ≠ item2.id) :
    ((download_and_upload_file hash now2
        (download_and_upload_file hash now1 DBState.empty item1 false false).1
        item2 false false).1.file_state.length = 1)
    ∧ ((download_and_upload_file hash now2
        (download_and_upload_file hash now1 DBState.empty item1 false false).1
        item2 false false).1.drive_file_mapping = [])
    ∧ ((download_and_upload_file hash now2
        (download_and_upload_file hash now1 DBState.empty item1 false false).1
        item2 false false).2.1
       = SyncAction.dedupeLink
           (casObjectKey (hash item1.content) (suffixLower (exportFileName item2)))
           (hash item1.content))
    ∧ (((download_and_upload_file hash now2
        (download_and_upload_file hash now1 DBState.empty item1 false false).1
        item2 false false).2.2).map (fun p => p.2.1) = some false)
    ∧ ((get_file_by_sha256 (download_and_upload_file hash now2
          (download_and_upload_file hash now1 DBState.empty item1 false false).1
          item2 false false).1 (hash item1.content)).map (fun r => r.drive_file_id)
       = some (some item2.id)) := by
  have h1db : (download_and_upload_file hash now1 DBState.empty item1 false false).1
      = { file_state := [insertedRecord now1 (hash item1.content)
            (casObjectKey (hash item1.content) (suffixLower (exportFileName item1)))
            FileStatus.synced
            { UpsertFields.noArgs with
              drive_file_id := some item1.id
              drive_path := some item1.path
              original_name := some item1.name
              extension := some (suffixLower (exportFileName item1)) }],
          drive_file_mapping := [], checkpoint := [] } := rfl
  have hbeq : ((some item1.id : Option String) == some item2.id) = false := by
    rw [beq_eq_false_iff_ne]
    simpa using hid
  have hfa2 : file_already_synced
      (download_and_upload_file hash now1 DBState.empty item1 false false).1
      item2.id item2.path item2.name = none := by
    unfold file_already_synced get_file_by_drive_id
    rw [h1db]
    simp only [List.find?_cons, List.find?_nil]
    have hproj : (insertedRecord now1 (hash item1.content)
        (casObjectKey (hash item1.content) (suffixLower (exportFileName item1)))
        FileStatus.synced
        { UpsertFields.noArgs with
          drive_file_id := some item1.id
          drive_path := some item1.path
          original_name := some item1.name
          extension := some (suffixLower (exportFileName item1)) }).drive_file_id
        = some item1.id := rfl
    rw [hproj, hbeq]
  have hg : get_file_by_sha256
      (download_and_upload_file hash now1 DBState.empty item1 false false).1
      (hash item1.content)
      = some (insertedRecord now1 (hash item1.content)
          (casObjectKey (hash item1.content) (suffixLower (exportFileName item1)))
          FileStatus.synced
          { UpsertFields.noArgs with
            drive_file_id := some item1.id
            drive_path := some item1.path
            original_name := some item1.name
            extension := some (suffixLower (exportFileName item1)) }) := by
    unfold get_file_by_sha256
    rw [h1db]
    simp [List.find?_cons, insertedRecord_sha256]
  have hg2 : get_file_by_sha256
      (download_and_upload_file hash now1 DBState.empty item1 false false).1
      (hash item2.content)
      = some (insertedRecord now1 (hash item1.content)
          (casObjectKey (hash item1.content) (suffixLower (exportFileName item1)))
          FileStatus.synced
          { UpsertFields.noArgs with
            drive_file_id := some item1.id
            drive_path := some item1.path
            original_name := some item1.name
            extension := some (suffixLower (exportFileName item1)) }) := by
    rw [hcontent]
    exact hg
  have h2 := download_dedupe_branch hash now2
    (download_and_upload_file hash now1 DBState.empty item1 false false).1
    item2 _ hfa2 hg2
  rw [hcontent] at h2
  have hup : upsert_file
      (download_and_upload_file hash now1 DBState.empty item1 false false).1
      now2 (hash item1.content)
      (casObjectKey (hash item1.content) (suffixLower (exportFileName item2)))
      FileStatus.synced
      { UpsertFields.noArgs with
        drive_file_id := some item2.id
        drive_path := some item2.path
        original_name := some item2.name
        extension := some (suffixLower (exportFileName item2)) }
      = { file_state := [upsertExisting
            (insertedRecord now1 (hash item1.content)
              (casObjectKey (hash item1.content) (suffixLower (exportFileName item1)))
              FileStatus.synced
              { UpsertFields.noArgs with
                drive_file_id := some item1.id
                drive_path := some item1.path
                original_name := some item1.name
                extension := some (suffixLower (exportFileName item1)) })
            now2
            (casObjectKey (hash item1.content) (suffixLower (exportFileName item2)))
            FileStatus.synced
            { UpsertFields.noArgs with
              drive_file_id := some item2.id
              drive_path := some item2.path
              original_name := some item2.name
              extension := some (suffixLower (exportFileName item2)) }],
          drive_file_mapping := [], checkpoint := [] } := by
    unfold upsert_file
    rw [hg, h1db]
    simp [List.map_cons, insertedRecord_sha256]
  refine ⟨?_, ?_, ?_, ?_, ?_⟩
  · rw [h2]
    simp only [hup]
    rfl
  · rw [h2]
    simp only [hup]
  · rw [h2]
  · rw [h2]
    rfl
  · rw [h2]
    simp only [hup]
    unfold get_file_by_sha256
    simp [List.find?_cons, upsertExisting_sha256, insertedRecord_sha256,
      upsertExisting_drive_file_id, overwriteIfProvided]

/-- Witness for C4's amended statement: the two fixture items share bytes
under distinct origin ids, and the theorem applies. -/
theorem c4_witness :
    ((download_and_upload_file testHash 2
        (download_and_upload_file testHash 1 DBState.empty item4a false false).1
        item4b false false).1.file_state.length = 1)
    ∧ ((download_and_upload_file testHash 2
        (download_and_upload_file testHash 1 DBState.empty item4a false false).1
        item4b false false).1.drive_file_mapping = []) := by
  have h := c4_dedup_single_record_no_mapping testHash 1 2 item4a item4b rfl
    (by decide)
  exact ⟨h.1, h.2.1⟩

/-- Counterexample for C4 as stated: after syncing the same bytes under the
two origin ids `g4a` and `g4b`, the mapping table has zero rows — not the
two `OriginMapping` rows the claim requires (and the single `file_state` row
now carries only the second origin id). -/
theorem c4_counterexample :
    ((download_and_upload_file testHash 2
        (download_and_upload_file testHash 1 DBState.empty item4a false false).1
        item4b false false).1.drive_file_mapping.length = 0)
    ∧ ¬ ((download_and_upload_file testHash 2
        (download_and_upload_file testHash 1 DBState.empty item4a false false).1
        item4b false false).1.drive_file_mapping.length = 2)
    ∧ ((download_and_upload_file testHash 2
        (download_and_upload_file testHash 1 DBState.empty item4a false false).1
        item4b false false).1.file_state.length = 1)
    ∧ (((download_and_upload_file testHash 2
        (download_and_upload_file testHash 1 DBState.empty item4a false false).1
        item4b false false).2.2).map (fun p => p.2.1) = some false)
    ∧ ((get_file_by_sha256 (download_and_upload_file testHash 2
          (download_and_upload_file testHash 1 DBState.empty item4a false false).1
          item4b false false).1 (testHash item4a.content)).map
        (fun r => r.drive_file_id) = some (some "g4b")) := by
  decide

/-! ### Selection lemmas (C1) -/

theorem contains_eq_false_of_not_mem {l : List String} {a : String} (h : a ∉ l) :
    l.contains a = false := by
  rw [← Bool.not_eq_true]
  intro hc
  exact h (by simpa [List.contains, List.elem_iff] using hc)

theorem dedupBySha_eq_self (l : List FileRecord) (seen : List String)
    (hn : (l.map (fun r => r.sha256)).Nodup)
    (hs : ∀ r ∈ l, r.sha256 ∉ seen) :
    dedupBySha l seen = l := by
  induction l generalizing seen with
  | nil => rfl
  | cons hd tl ih =>
    unfold dedupBySha
    have hc : seen.contains hd.sha256 = false :=
      contains_eq_false_of_not_mem (hs hd (List.mem_cons_self hd tl))
    rw [hc]
    simp only [Bool.false_eq_true, if_false]
    congr 1
    rw [List.map_cons, List.nodup_cons] at hn
    refine ih _ hn.2 ?_
    intro r hr hmem
    rcases List.mem_cons.mp hmem with h | h
    · exact hn.1 (List.mem_map.mpr ⟨r, hr, h⟩)
    · exact hs r (List.mem_cons_of_mem hd hr) h

/-- C1 (amended): in full mode the database-based entry point
(`src/services/ingest/main.py`) passes `retry_failed=True` and no digest
filter, so — over a well-formed store — a record's `(s3_key, sha256)` pair is
selected by the extraction stage exactly when the record is at `synced` or
`failed_process`, and its `(text_key, sha256)` pair is selected by the
indexing stage exactly when it is at `processed`; both selections are
independent of the digests produced by the preceding stage (the
`synced_hashes`/`processed_hashes` arguments are arbitrary).  The legacy
entry point (`src/main.py`) violates the claim — see the counterexample. -/
theorem c1_ingest_full_selects_all_eligible
    (db : DBState) (hwf : uniqueShas db)
    (synced_hashes processed_hashes : List String)
    (r : FileRecord) (hr : r ∈ db.file_state) :
    ((r.s3_key, r.sha256) ∈ ingestFullProcessSelection db none synced_hashes
      ↔ (r.status = FileStatus.synced ∨ r.status = FileStatus.failed_process))
    ∧ ((textKeyOf r.sha256, r.sha256) ∈ ingestFullIndexSelection db none processed_hashes
      ↔ r.status = FileStatus.processed) := by
  have hinj : ∀ x ∈ db.file_state, ∀ y ∈ db.file_state,
      x.sha256 = y.sha256 → x = y :=
    fun x hx y hy hxy => List.inj_on_of_nodup_map hwf hx hy hxy
  have hnodup : (((db.file_state.filter (fun r => r.status == FileStatus.synced))
      ++ (db.file_state.filter (fun r => r.status == FileStatus.failed_process))).map
        (fun r => r.sha256)).Nodup := by
    rw [List.map_append]
    apply List.Nodup.append
    · exact List.Nodup.sublist
        (List.Sublist.map _ (List.filter_sublist db.file_state)) hwf
    · exact List.Nodup.sublist
        (List.Sublist.map _ (List.filter_sublist db.file_state)) hwf
    · intro a ha hb
      obtain ⟨x, hx, hxa⟩ := List.mem_map.mp ha
      obtain ⟨y, hy, hya⟩ := List.mem_map.mp hb
      rw [List.mem_filter] at hx hy
      have hxy : x = y := hinj x hx.1 y hy.1 (hxa.trans hya.symm)
      have h1 : x.status = FileStatus.synced := by simpa using hx.2
      have h2 : y.status = FileStatus.failed_process := by simpa using hy.2
      rw [hxy, h2] at h1
      exact absurd h1 (by decide)
  constructor
  · simp only [ingestFullProcessSelection, process_batch_selection, filterBySha256,
      list_incoming_files, get_files_for_processing, get_files_by_status, if_true]
    rw [dedupBySha_eq_self _ _ hnodup (fun r2 _ h => List.not_mem_nil _ h)]
    constructor
    · intro hmem
      obtain ⟨r2, hr2, heq⟩ := List.mem_map.mp hmem
      have hsha : r2.sha256 = r.sha256 := congrArg Prod.snd heq
      rcases List.mem_append.mp hr2 with h | h
      · rw [List.mem_filter] at h
        have : r2 = r := hinj r2 h.1 r hr hsha
        rw [← this]
        left
        simpa using h.2
      · rw [List.mem_filter] at h
        have : r2 = r := hinj r2 h.1 r hr hsha
        rw [← this]
        right
        simpa using h.2
    · intro hst
      apply List.mem_map.mpr
      refine ⟨r, List.mem_append.mpr ?_, rfl⟩
      rcases hst with h | h
      · exact Or.inl (List.mem_filter.mpr ⟨hr, by simp [h]⟩)
      · exact Or.inr (List.mem_filter.mpr ⟨hr, by simp [h]⟩)
  · simp only [ingestFullIndexSelection, index_batch_selection, filterBySha256,
      list_unindexed_files, get_files_for_indexing, get_files_by_status]
    constructor
    · intro hmem
      obtain ⟨r2, hr2, heq⟩ := List.mem_map.mp hmem
      have hsha : r2.sha256 = r.sha256 := congrArg Prod.snd heq
      rw [List.mem_filter] at hr2
      have : r2 = r := hinj r2 hr2.1 r hr hsha
      rw [← this]
      simpa using hr2.2
    · intro hst
      exact List.mem_map.mpr ⟨r, List.mem_filter.mpr ⟨hr, by simp [hst]⟩, rfl⟩

/-- Witness for C1's amended statement: in the single-row store `db5`
(row at `synced`), the ingest entry point's full-mode extraction stage
selects the row even though the sync stage of the same run reported no
digests at all. -/
theorem c1_witness :
    (record5.s3_key, record5.sha256) ∈ ingestFullProcessSelection db5 none [] :=
  ((c1_ingest_full_selects_all_eligible db5 (by unfold uniqueShas; decide) [] []
    record5 (by decide)).1).mpr (Or.inl rfl)

/-- Counterexample for C1 as stated: the legacy entry point (`src/main.py`)
restricts full-mode extraction to the digests the sync stage just returned —
with `record5` eligible at `synced` but absent from the sync run's (nonempty)
digest list, the legacy full-mode selection is empty, while the self-healing
selection contains the record.  (The digest list must be nonempty: the
filter guard is `if filter_sha256:`, so an empty list applies no filter.) -/
theorem c1_counterexample :
    record5.status = FileStatus.synced
    ∧ record5 ∈ db5.file_state
    ∧ record5.sha256 ∉ ["ffff"]
    ∧ legacyFullProcessSelection db5 none false ["ffff"] = []
    ∧ ingestFullProcessSelection db5 none ["ffff"]
        = [(record5.s3_key, record5.sha256)] := by
  decide

end AIKB
